import Mathlib

/-!
# Verification of the dtd2mysql schedule assembly pipeline

Shallow embedding of the GTFS schedule-assembly core of the repository:
the `ScheduleCalendar` algebra, the streaming `ScheduleBuilder`, the
overlay resolver (`applyOverlays`), the association merge stop, the
schedule flattener (`mergeSchedules`), the headsign inference pass
(`fillStopHeadsigns`) and the GTFS writer loop (`copyTrips`).

Dates are modelled as integers counting days from 2017-01-01, which was a
Sunday, so the weekday of day `d` is `d % 7` with `0 = Sunday` and
`6 = Saturday`, exactly the index convention of the source's `Days` maps.
-/

namespace Dtd2Mysql

/-- STP indicator, from `src/gtfs/native/OverlayRecord.ts`. -/
inductive STP where
  | Permanent
  | Overlay
  | New
  | Cancellation
deriving DecidableEq, Repr

/-- Date indicator of an association, from `src/gtfs/native/Association`. -/
inductive DateIndicator where
  | Same
  | Next
  | Previous
deriving DecidableEq, Repr

/-- Association type, from `src/gtfs/native/Association`. -/
inductive AssociationType where
  | Split
  | Join
  | NA
deriving DecidableEq, Repr

/-- Route type, from `src/gtfs/file/Route.ts`. -/
inductive RouteType where
  | Rail
  | Subway
  | Tram
  | Bus
  | ReplacementBus
  | Ferry
deriving DecidableEq, Repr

/-- A weekday mask: one flag per weekday, indexed 0 = Sunday .. 6 = Saturday
as in the source's `Days` type (`{0: sunday, 1: monday, ..., 6: saturday}`). -/
structure Days where
  sunday : Bool
  monday : Bool
  tuesday : Bool
  wednesday : Bool
  thursday : Bool
  friday : Bool
  saturday : Bool
deriving DecidableEq, Repr

/-- Look a weekday flag up by its 0..6 index. -/
def Days.get (w : Days) : Fin 7 → Bool
  | 0 => w.sunday
  | 1 => w.monday
  | 2 => w.tuesday
  | 3 => w.wednesday
  | 4 => w.thursday
  | 5 => w.friday
  | 6 => w.saturday

/-- The all-days mask. -/
def ALL_DAYS : Days := ⟨true, true, true, true, true, true, true⟩

/-- The empty mask, `NO_DAYS` in the source. -/
def NO_DAYS : Days := ⟨false, false, false, false, false, false, false⟩

/-- Bit-wise mask subtraction: flags removed by `b` are cleared, the rest
keep their value. -/
def Days.subtract (a b : Days) : Days :=
  ⟨a.sunday && !b.sunday, a.monday && !b.monday, a.tuesday && !b.tuesday,
    a.wednesday && !b.wednesday, a.thursday && !b.thursday,
    a.friday && !b.friday, a.saturday && !b.saturday⟩

@[simp] theorem Days.subtract_no_days (a : Days) : a.subtract NO_DAYS = a := by
  cases a; simp [Days.subtract, NO_DAYS]

/-- Weekday of an absolute day number (day 0 = 2017-01-01, a Sunday). -/
def weekday (d : Int) : Fin 7 :=
  ⟨(d % 7).toNat, by omega⟩

/-- Modelled from the spec: `ScheduleCalendar` (its source file is not in the
repository snapshot; only its test suite and callers are).  A date range
`[runsFrom, runsTo]`, a weekday mask, and a set of excluded dates. -/
structure ScheduleCalendar where
  runsFrom : Int
  runsTo : Int
  days : Days
  excludeDays : Finset Int
deriving DecidableEq

namespace ScheduleCalendar

/-- Modelled from the spec: a day is an operating day when it lies in the
range, its weekday flag is set and it is not excluded. -/
def runsOn (c : ScheduleCalendar) (d : Int) : Prop :=
  c.runsFrom ≤ d ∧ d ≤ c.runsTo ∧ c.days.get (weekday d) = true ∧ d ∉ c.excludeDays

instance (c : ScheduleCalendar) (d : Int) : Decidable (c.runsOn d) := by
  unfold runsOn; infer_instance

/-- Modelled from the spec: shared-day iteration yields every calendar day in
`[max(a.from, b.from), min(a.to, b.to)]` whose weekday flag is set in both
masks and which is in neither exclusion set. -/
def sharedDays (a b : ScheduleCalendar) : Finset Int :=
  (Finset.Icc (max a.runsFrom b.runsFrom) (min a.runsTo b.runsTo)).filter
    (fun d => a.days.get (weekday d) = true ∧ b.days.get (weekday d) = true
      ∧ d ∉ a.excludeDays ∧ d ∉ b.excludeDays)

/-- Overlap classification, from `src/gtfs/native/ScheduleCalendar.ts`. -/
inductive OverlapType where
  | None
  | Short
deriving DecidableEq, Repr

/-- Modelled from the spec: `getOverlap` returns `None` if the weekday masks
are disjoint or if the shared-day generator produces no element, `Short`
otherwise. -/
def getOverlap (a b : ScheduleCalendar) : OverlapType :=
  if (∀ i : Fin 7, ¬(a.days.get i = true ∧ b.days.get i = true)) then .None
  else if a.sharedDays b = ∅ then .None
  else .Short

/-- Modelled from the spec: `clone(start, end, removeMask, excludeSet)`
subtracts `removeMask` from the mask, advances `start` forward while the
weekday is off or the day excluded, advances `end` backward symmetrically,
filters the exclusion set to the new range, and returns null when no
operating weekday remains. -/
def clone (c : ScheduleCalendar) (start stop : Int) (removeMask : Days)
    (excl : Finset Int) : Option ScheduleCalendar :=
  let mask := c.days.subtract removeMask
  let operating := (Finset.Icc start stop).filter
    (fun d => mask.get (weekday d) = true ∧ d ∉ excl)
  if h : operating = ∅ then none
  else
    let first := operating.min' (Finset.nonempty_iff_ne_empty.mpr h)
    let last := operating.max' (Finset.nonempty_iff_ne_empty.mpr h)
    some ⟨first, last, mask, excl.filter (fun d => first ≤ d ∧ d ≤ last)⟩

/-- Modelled from the spec: `addExcludeDays(other)` inserts every shared day
into a fresh copy of this calendar's exclusion set and clones with an
all-zero remove mask; null when no operating day remains. -/
def addExcludeDays (c other : ScheduleCalendar) : Option ScheduleCalendar :=
  c.clone c.runsFrom c.runsTo NO_DAYS (c.excludeDays ∪ c.sharedDays other)

/-- Modelled from the spec: rotate the weekday mask one position forward
(`Sunday→Monday ... Saturday→Sunday`). -/
def rotateForward (w : Days) : Days :=
  ⟨w.saturday, w.sunday, w.monday, w.tuesday, w.wednesday, w.thursday, w.friday⟩

/-- Modelled from the spec: rotate the weekday mask one position backward. -/
def rotateBackward (w : Days) : Days :=
  ⟨w.monday, w.tuesday, w.wednesday, w.thursday, w.friday, w.saturday, w.sunday⟩

/-- Modelled from the spec: add one day to `runsFrom`, `runsTo` and every
excluded date, rotating the mask forward. -/
def shiftForward (c : ScheduleCalendar) : ScheduleCalendar :=
  ⟨c.runsFrom + 1, c.runsTo + 1, rotateForward c.days,
    c.excludeDays.image (fun d => d + 1)⟩

/-- Modelled from the spec: subtract one day from `runsFrom`, `runsTo` and
every excluded date, rotating the mask backward. -/
def shiftBackward (c : ScheduleCalendar) : ScheduleCalendar :=
  ⟨c.runsFrom - 1, c.runsTo - 1, rotateBackward c.days,
    c.excludeDays.image (fun d => d - 1)⟩

theorem mem_sharedDays {a b : ScheduleCalendar} {d : Int} :
    d ∈ a.sharedDays b ↔ a.runsOn d ∧ b.runsOn d := by
  simp only [sharedDays, runsOn, Finset.mem_filter, Finset.mem_Icc, max_le_iff, le_min_iff]
  tauto

theorem getOverlap_eq_none_iff {a b : ScheduleCalendar} :
    a.getOverlap b = .None ↔
      (∀ i : Fin 7, ¬(a.days.get i = true ∧ b.days.get i = true)) ∨ a.sharedDays b = ∅ := by
  unfold getOverlap
  split_ifs with h1 h2 <;> simp_all

theorem sharedDays_comm (a b : ScheduleCalendar) : a.sharedDays b = b.sharedDays a := by
  ext d
  simp only [mem_sharedDays]
  tauto

theorem getOverlap_comm (a b : ScheduleCalendar) : a.getOverlap b = b.getOverlap a := by
  unfold getOverlap
  rw [sharedDays_comm]
  congr 1
  simp only [eq_iff_iff]
  constructor <;> intro h i <;> have := h i <;> tauto

/-- The operating days that survive `addExcludeDays c o`. -/
def surviving (c o : ScheduleCalendar) : Finset Int :=
  (Finset.Icc c.runsFrom c.runsTo).filter
    (fun d => c.days.get (weekday d) = true ∧ d ∉ (c.excludeDays ∪ c.sharedDays o))

/-- Unfolding of `addExcludeDays` in terms of the surviving-day set: the mask
is unchanged, the range is tightened to the first and last surviving day,
and the exclusion set is filtered to it. -/
theorem addExcludeDays_def (c o : ScheduleCalendar) :
    c.addExcludeDays o =
      if h : surviving c o = ∅ then none
      else some ⟨(surviving c o).min' (Finset.nonempty_iff_ne_empty.mpr h),
          (surviving c o).max' (Finset.nonempty_iff_ne_empty.mpr h), c.days,
          (c.excludeDays ∪ c.sharedDays o).filter (fun d =>
            (surviving c o).min' (Finset.nonempty_iff_ne_empty.mpr h) ≤ d ∧
            d ≤ (surviving c o).max' (Finset.nonempty_iff_ne_empty.mpr h))⟩ := by
  unfold addExcludeDays clone surviving
  simp only [Days.subtract_no_days]

/-- Unfolding of a successful `addExcludeDays`. -/
theorem addExcludeDays_eq_some {c o r : ScheduleCalendar}
    (h : c.addExcludeDays o = some r) :
    ∃ hne : (surviving c o).Nonempty,
      r = ⟨(surviving c o).min' hne, (surviving c o).max' hne, c.days,
          (c.excludeDays ∪ c.sharedDays o).filter (fun d =>
            (surviving c o).min' hne ≤ d ∧ d ≤ (surviving c o).max' hne)⟩ := by
  rw [addExcludeDays_def] at h
  split_ifs at h with hemp
  rw [Option.some_inj] at h
  exact ⟨Finset.nonempty_iff_ne_empty.mpr hemp, h.symm⟩

/-- Every operating day of a successful `addExcludeDays` result is an
operating day of the original calendar, the mask is unchanged, and the range
only tightens. -/
theorem addExcludeDays_runsOn {c o r : ScheduleCalendar}
    (h : c.addExcludeDays o = some r) :
    r.days = c.days ∧ c.runsFrom ≤ r.runsFrom ∧ r.runsTo ≤ c.runsTo ∧
      (∀ d, r.runsOn d → c.runsOn d) ∧
      (∀ d, r.runsOn d → d ∉ c.sharedDays o) := by
  obtain ⟨hne, rfl⟩ := addExcludeDays_eq_some h
  have hmin := (surviving c o).min'_mem hne
  have hmax := (surviving c o).max'_mem hne
  simp only [surviving, Finset.mem_filter, Finset.mem_Icc] at hmin hmax
  refine ⟨rfl, hmin.1.1, hmax.1.2, ?_, ?_⟩
  · rintro d ⟨h1, h2, h3, h4⟩
    simp only at h1 h2 h3 h4 ⊢
    have hrange : c.runsFrom ≤ d ∧ d ≤ c.runsTo :=
      ⟨le_trans hmin.1.1 h1, le_trans h2 hmax.1.2⟩
    have hnotex : d ∉ c.excludeDays ∪ c.sharedDays o := by
      intro hd
      exact h4 (Finset.mem_filter.mpr ⟨hd, h1, h2⟩)
    exact ⟨hrange.1, hrange.2, h3,
      fun hd => hnotex (Finset.mem_union.mpr (Or.inl hd))⟩
  · rintro d ⟨h1, h2, h3, h4⟩ hd
    exact h4 (Finset.mem_filter.mpr ⟨Finset.mem_union.mpr (Or.inr hd), h1, h2⟩)

/-- A successful `addExcludeDays` result shares no day with the overlay that
was excluded. -/
theorem addExcludeDays_sharedDays_empty {c o r : ScheduleCalendar}
    (h : c.addExcludeDays o = some r) : r.sharedDays o = ∅ := by
  obtain ⟨-, -, -, hmono, hshared⟩ := addExcludeDays_runsOn h
  ext d
  simp only [mem_sharedDays, Finset.not_mem_empty, iff_false, not_and]
  intro hr ho
  exact hshared d hr (mem_sharedDays.mpr ⟨hmono d hr, ho⟩)

/-- A successful `addExcludeDays` result does not overlap the overlay. -/
theorem addExcludeDays_getOverlap_none {c o r : ScheduleCalendar}
    (h : c.addExcludeDays o = some r) : r.getOverlap o = .None :=
  getOverlap_eq_none_iff.mpr (Or.inr (addExcludeDays_sharedDays_empty h))

/-- Non-overlap is preserved when one side only shrinks its operating days
while keeping its weekday mask. -/
theorem getOverlap_none_of_shrink {c r x : ScheduleCalendar}
    (hdays : r.days = c.days) (hmono : ∀ d, r.runsOn d → c.runsOn d)
    (h : c.getOverlap x = .None) : r.getOverlap x = .None := by
  rcases getOverlap_eq_none_iff.mp h with hmask | hshared
  · exact getOverlap_eq_none_iff.mpr (Or.inl (by rw [hdays]; exact hmask))
  · refine getOverlap_eq_none_iff.mpr (Or.inr ?_)
    ext d
    simp only [mem_sharedDays, Finset.not_mem_empty, iff_false, not_and]
    intro hr hx
    have : d ∈ c.sharedDays x := mem_sharedDays.mpr ⟨hmono d hr, hx⟩
    rw [hshared] at this
    exact absurd this (Finset.not_mem_empty d)

theorem image_add_one_sub_one (s : Finset Int) :
    (s.image (fun d => d + 1)).image (fun d => d - 1) = s := by
  rw [Finset.image_image]
  ext x
  simp only [Finset.mem_image, Function.comp_apply]
  constructor
  · rintro ⟨y, hy, rfl⟩
    simpa using hy
  · intro hx
    exact ⟨x, hx, by omega⟩

theorem image_sub_one_add_one (s : Finset Int) :
    (s.image (fun d => d - 1)).image (fun d => d + 1) = s := by
  rw [Finset.image_image]
  ext x
  simp only [Finset.mem_image, Function.comp_apply]
  constructor
  · rintro ⟨y, hy, rfl⟩
    simpa using hy
  · intro hx
    exact ⟨x, hx, by omega⟩

end ScheduleCalendar

/-- Claim C4, counterexample.  `addExcludeDays` is not monotone on the
exclusion set: excluding 2017-01-01..04 (days 0..3) from a calendar running
days 0..30 with the single exclusion day 1 tightens the range to 4..30, and
the `clone` step then silently drops every exclusion date (including the
pre-existing day 1) because it filters the exclusion set to the new range.
The exclusion set shrinks from one element to zero and is not a superset of
the original. -/
theorem addExcludeDays_shrinks_exclusions_cex :
    ScheduleCalendar.addExcludeDays ⟨0, 30, ALL_DAYS, {1}⟩ ⟨0, 3, ALL_DAYS, ∅⟩ =
      some ⟨4, 30, ALL_DAYS, ∅⟩ ∧
    (⟨4, 30, ALL_DAYS, ∅⟩ : ScheduleCalendar).excludeDays.card <
      (⟨0, 30, ALL_DAYS, {1}⟩ : ScheduleCalendar).excludeDays.card ∧
    ¬ (⟨0, 30, ALL_DAYS, {1}⟩ : ScheduleCalendar).excludeDays ⊆
      (⟨4, 30, ALL_DAYS, ∅⟩ : ScheduleCalendar).excludeDays := by
  refine ⟨by decide, by decide, by decide⟩

/-- Claim C4, amended.  When `c.addExcludeDays o` succeeds, the result's
operating-day set is a subset of `c`'s, and the result's exclusion set
contains every exclusion date of `c` that lies inside the result's
(possibly tightened) date range; exclusions outside the new range are
dropped, so the exclusion-set size can shrink. -/
theorem addExcludeDays_monotone (c o r : ScheduleCalendar)
    (h : c.addExcludeDays o = some r) :
    (∀ d, r.runsOn d → c.runsOn d) ∧
    (∀ d ∈ c.excludeDays, r.runsFrom ≤ d → d ≤ r.runsTo → d ∈ r.excludeDays) := by
  refine ⟨(ScheduleCalendar.addExcludeDays_runsOn h).2.2.2.1, ?_⟩
  obtain ⟨hne, rfl⟩ := ScheduleCalendar.addExcludeDays_eq_some h
  intro d hd h1 h2
  exact Finset.mem_filter.mpr ⟨Finset.mem_union.mpr (Or.inl hd), h1, h2⟩

/-- Witness for the amended C4 theorem at a concrete input: excluding days
0..6 from a calendar running days 0..30 with exclusion day 8 gives the
calendar running 7..30 with exclusion day 8 kept. -/
theorem addExcludeDays_monotone_witness :
    (∀ d, (⟨7, 30, ALL_DAYS, {8}⟩ : ScheduleCalendar).runsOn d →
      (⟨0, 30, ALL_DAYS, {8}⟩ : ScheduleCalendar).runsOn d) ∧
    (∀ d ∈ (⟨0, 30, ALL_DAYS, {8}⟩ : ScheduleCalendar).excludeDays,
      (⟨7, 30, ALL_DAYS, {8}⟩ : ScheduleCalendar).runsFrom ≤ d →
      d ≤ (⟨7, 30, ALL_DAYS, {8}⟩ : ScheduleCalendar).runsTo →
      d ∈ (⟨7, 30, ALL_DAYS, {8}⟩ : ScheduleCalendar).excludeDays) :=
  addExcludeDays_monotone ⟨0, 30, ALL_DAYS, {8}⟩ ⟨0, 6, ALL_DAYS, ∅⟩
    ⟨7, 30, ALL_DAYS, {8}⟩ (by decide)

/-- Claim C5.  `shiftForward` and `shiftBackward` are inverses of each other
(on the whole calendar value, hence in particular on `runsFrom`, `runsTo`
and `excludeDays`); `shiftForward` adds one day to `runsFrom`, `runsTo` and
every excluded date and rotates the weekday mask one position forward
(Sunday→Monday, ..., Saturday→Sunday), and `shiftBackward` does the
inverse.  Both are pure functions returning a fresh value. -/
theorem shiftForward_shiftBackward_inverse (c : ScheduleCalendar) :
    c.shiftForward.shiftBackward = c ∧ c.shiftBackward.shiftForward = c ∧
    c.shiftForward = ⟨c.runsFrom + 1, c.runsTo + 1,
      ScheduleCalendar.rotateForward c.days,
      c.excludeDays.image (fun d => d + 1)⟩ ∧
    c.shiftBackward = ⟨c.runsFrom - 1, c.runsTo - 1,
      ScheduleCalendar.rotateBackward c.days,
      c.excludeDays.image (fun d => d - 1)⟩ := by
  obtain ⟨f, t, d, e⟩ := c
  refine ⟨?_, ?_, rfl, rfl⟩
  · simp only [ScheduleCalendar.shiftForward, ScheduleCalendar.shiftBackward,
      ScheduleCalendar.mk.injEq]
    refine ⟨by omega, by omega, ?_, ScheduleCalendar.image_add_one_sub_one e⟩
    cases d; rfl
  · simp only [ScheduleCalendar.shiftForward, ScheduleCalendar.shiftBackward,
      ScheduleCalendar.mk.injEq]
    refine ⟨by omega, by omega, ?_, ScheduleCalendar.image_sub_one_add_one e⟩
    cases d; rfl

/-! ## Overlay resolution (`src/gtfs/command/ApplyOverlays.ts`)

`applyOverlays` is generic in its element type (`<T extends OverlayRecord>`);
the `OverlayRecord` capability is modelled as a typeclass.  The spec requires
`clone(newCalendar, newId)` to preserve all other fields; the two laws below
record the part of that contract the resolver relies on. -/

class OverlayRecordC (T : Type) where
  rid : T → Nat
  tuid : T → String
  stp : T → STP
  calendar : T → ScheduleCalendar
  clone : T → ScheduleCalendar → Nat → T
  calendar_clone : ∀ x c n, calendar (clone x c n) = c
  tuid_clone : ∀ x c n, tuid (clone x c n) = tuid x

open OverlayRecordC in
/-- `applyOverlay(base, overlay)` from `ApplyOverlays.ts`: keep the base
intact when there is no overlap, otherwise exclude the overlay's days from
the base's calendar, dropping the base when nothing remains.  (The unused
`ids` generator parameter of the source is omitted.) -/
def applyOverlay {T : Type} [OverlayRecordC T] (base overlay : T) : Option T :=
  if (calendar base).getOverlap (calendar overlay) = .None then
    some base
  else
    match (calendar base).addExcludeDays (calendar overlay) with
    | none => none
    | some newCalendar => some (clone base newCalendar (rid base))

/-- The `for (const baseSchedule of schedulesByTuid[tuid])` loop of
`applyOverlays`, with JavaScript iterator semantics: the iterator walks an
index; `splice(indexOf(base), 1, ...)` replaces the base in place, and when
the replacement is dropped (`null`) the array shrinks so the iterator skips
the element that moved into the current position.  The loop body runs at
most `length` times; `fuel` is that explicit bound, so the function is
structurally recursive and executable. -/
def overlayLoop {T : Type} [OverlayRecordC T] [DecidableEq T]
    (inc : T) : Nat → List T → Nat → List T
  | 0, l, _ => l
  | fuel + 1, l, i =>
    if h : i < l.length then
      let base := l.get ⟨i, h⟩
      match applyOverlay base inc with
      | none => overlayLoop inc fuel (l.eraseIdx (l.indexOf base)) (i + 1)
      | some r => overlayLoop inc fuel (l.set (l.indexOf base) r) (i + 1)
    else l

open OverlayRecordC in
/-- One step of `applyOverlays`: run the overlay loop for non-Permanent
records, then append the record to its TUID's list unless it is a
Cancellation. -/
def applyOverlaysStep {T : Type} [OverlayRecordC T] [DecidableEq T]
    (m : String → List T) (schedule : T) : String → List T :=
  let l := m (tuid schedule)
  let l1 := if stp schedule ≠ STP.Permanent then overlayLoop schedule l.length l 0 else l
  let l2 := if stp schedule ≠ STP.Cancellation then l1 ++ [schedule] else l1
  Function.update m (tuid schedule) l2

/-- `applyOverlays` from `ApplyOverlays.ts`: index the schedules by TUID,
detect overlays and create new schedules as necessary.  The index is
modelled as a total function defaulting to the empty list
(`schedulesByTuid[schedule.tuid] || []`). -/
def applyOverlays {T : Type} [OverlayRecordC T] [DecidableEq T]
    (schedules : List T) : String → List T :=
  schedules.foldl applyOverlaysStep (fun _ => [])

/-- Instrumentation of `overlayLoop`: `true` exactly when no iteration of
the loop drops its base record (no `applyOverlay` call returns null). -/
def overlayLoopOk {T : Type} [OverlayRecordC T] [DecidableEq T]
    (inc : T) : Nat → List T → Nat → Bool
  | 0, _, _ => true
  | fuel + 1, l, i =>
    if h : i < l.length then
      let base := l.get ⟨i, h⟩
      match applyOverlay base inc with
      | none => false
      | some r => overlayLoopOk inc fuel (l.set (l.indexOf base) r) (i + 1)
    else true

open OverlayRecordC in
/-- Instrumented fold step: same index as `applyOverlaysStep`, plus a flag
recording whether any overlay application dropped a base record so far. -/
def applyOverlaysOkStep {T : Type} [OverlayRecordC T] [DecidableEq T]
    (p : (String → List T) × Bool) (schedule : T) : (String → List T) × Bool :=
  (applyOverlaysStep p.1 schedule,
    p.2 && (if stp schedule ≠ STP.Permanent then
      overlayLoopOk schedule (p.1 (tuid schedule)).length (p.1 (tuid schedule)) 0
    else true))

/-- `true` when the whole `applyOverlays` run never drops a base record. -/
def applyOverlaysOk {T : Type} [OverlayRecordC T] [DecidableEq T]
    (schedules : List T) : Bool :=
  (schedules.foldl applyOverlaysOkStep (fun _ => [], true)).2

section OverlayProofs

open OverlayRecordC

variable {T : Type} [OverlayRecordC T] [DecidableEq T]

theorem list_set_get_self {α : Type} (l : List α) (i : Nat) (h : i < l.length) :
    l.set i l[i] = l := by
  apply List.ext_getElem
  · simp
  · intro j h1 h2
    rw [List.getElem_set]
    split <;> simp_all

theorem list_indexOf_le {α : Type} [DecidableEq α] :
    ∀ (l : List α) (i : Nat) (h : i < l.length), l.indexOf l[i] ≤ i := by
  intro l
  induction l with
  | nil => intro i h; simp at h
  | cons a t ih =>
    intro i h
    cases i with
    | zero => simp [List.indexOf_cons]
    | succ n =>
      rw [List.indexOf_cons]
      cases hb : (a == (a :: t)[n + 1]) with
      | true => simp
      | false =>
        have := ih n (by simpa using h)
        simp only [cond_false, List.getElem_cons_succ] at *
        omega

/-- Core invariant of the overlay loop: if no base record is dropped, the
loop preserves pairwise non-overlap and leaves every record in the list
non-overlapping with the incoming record. -/
theorem overlayLoop_invariant (inc : T) :
    ∀ (fuel : Nat) (l : List T) (i : Nat),
      overlayLoopOk inc fuel l i = true →
      l.length - i ≤ fuel →
      l.Pairwise (fun a b => (calendar a).getOverlap (calendar b) = .None) →
      (∀ j (hj : j < l.length), j < i →
        (calendar l[j]).getOverlap (calendar inc) = .None) →
      (overlayLoop inc fuel l i).Pairwise
        (fun a b => (calendar a).getOverlap (calendar b) = .None) ∧
      ∀ x ∈ overlayLoop inc fuel l i,
        (calendar x).getOverlap (calendar inc) = .None := by
  intro fuel
  induction fuel with
  | zero =>
    intro l i _ hfuel hpw hidx
    simp only [overlayLoop]
    refine ⟨hpw, ?_⟩
    intro x hx
    obtain ⟨j, hj, rfl⟩ := List.mem_iff_getElem.mp hx
    exact hidx j hj (by omega)
  | succ fuel ih =>
    intro l i hok hfuel hpw hidx
    by_cases hi : i < l.length
    · rw [overlayLoop, dif_pos hi]
      rw [overlayLoopOk, dif_pos hi] at hok
      simp only [List.get_eq_getElem] at hok ⊢
      cases happ : applyOverlay l[i] inc with
      | none => rw [happ] at hok; exact absurd hok (by simp)
      | some r =>
        rw [happ] at hok
        simp only at hok ⊢
        have hkle : l.indexOf l[i] ≤ i := list_indexOf_le l i hi
        have hmem : l[i] ∈ l := List.getElem_mem hi
        have hk : l.indexOf l[i] < l.length := List.indexOf_lt_length.mpr hmem
        have hkval : l[l.indexOf l[i]] = l[i] := by
          have h1 := List.indexOf_get hk
          simp only [List.get_eq_getElem] at h1
          exact h1
        unfold applyOverlay at happ
        split_ifs at happ with hov
        · -- no overlap: the base is kept intact and the list is unchanged
          rw [Option.some_inj] at happ
          subst happ
          have hset : l.set (l.indexOf l[i]) l[i] = l := by
            have h2 := list_set_get_self l (l.indexOf l[i]) hk
            rwa [hkval] at h2
          rw [hset] at hok ⊢
          refine ih l (i + 1) hok (by omega) hpw ?_
          intro j hj hji
          by_cases hjeq : j = i
          · subst hjeq; exact hov
          · exact hidx j hj (by omega)
        · -- overlap: the base is replaced by a clone with the shared days excluded
          cases hadd : (calendar l[i]).addExcludeDays (calendar inc) with
          | none => rw [hadd] at happ; exact absurd happ (by simp)
          | some nc =>
            rw [hadd] at happ
            rw [Option.some_inj] at happ
            subst happ
            have hki : l.indexOf l[i] = i := by
              rcases Nat.lt_or_ge (l.indexOf l[i]) i with hlt | hge
              · exfalso
                have h1 := hidx (l.indexOf l[i]) hk hlt
                rw [hkval] at h1
                exact hov h1
              · omega
            rw [hki] at hok ⊢
            have hcal : calendar (clone l[i] nc (rid l[i])) = nc := calendar_clone ..
            obtain ⟨hdays, -, -, hmono, -⟩ := ScheduleCalendar.addExcludeDays_runsOn hadd
            have hrinc : (calendar (clone l[i] nc (rid l[i]))).getOverlap (calendar inc)
                = .None := by
              rw [hcal]
              exact ScheduleCalendar.addExcludeDays_getOverlap_none hadd
            have hpw' : (l.set i (clone l[i] nc (rid l[i]))).Pairwise
                (fun a b => (calendar a).getOverlap (calendar b) = .None) := by
              rw [List.pairwise_iff_getElem] at hpw ⊢
              intro p q hp hq hpq
              simp only [List.length_set] at hp hq
              rw [List.getElem_set, List.getElem_set]
              split_ifs with hip hiq hiq
              · omega
              · subst hip
                have h2 := hpw i q hp hq hpq
                rw [hcal]
                exact ScheduleCalendar.getOverlap_none_of_shrink hdays hmono h2
              · subst hiq
                have h2 := hpw p i hp hq hpq
                rw [hcal, ScheduleCalendar.getOverlap_comm]
                refine ScheduleCalendar.getOverlap_none_of_shrink hdays hmono ?_
                rw [ScheduleCalendar.getOverlap_comm]
                exact h2
              · exact hpw p q hp hq hpq
            refine ih (l.set i (clone l[i] nc (rid l[i]))) (i + 1) hok
              (by simp; omega) hpw' ?_
            intro j hj hji
            simp only [List.length_set] at hj
            rw [List.getElem_set]
            split_ifs with hij
            · exact hrinc
            · exact hidx j hj (by omega)
    · rw [overlayLoop, dif_neg hi]
      refine ⟨hpw, ?_⟩
      intro x hx
      obtain ⟨j, hj, rfl⟩ := List.mem_iff_getElem.mp hx
      exact hidx j hj (by omega)

/-- During the Permanent-only phase the fold simply groups records by TUID. -/
theorem perms_fold (ps : List T) (h : ∀ r ∈ ps, stp r = STP.Permanent) :
    ∀ (m : String → List T) (t : String),
      (ps.foldl applyOverlaysStep m) t = m t ++ ps.filter (fun r => tuid r == t) := by
  induction ps with
  | nil => intro m t; simp
  | cons p ps ih =>
    intro m t
    have hp : stp p = STP.Permanent := h p (by simp)
    have hstep : applyOverlaysStep m p
        = Function.update m (tuid p) (m (tuid p) ++ [p]) := by
      unfold applyOverlaysStep
      simp [hp]
    rw [List.foldl_cons, hstep, ih (fun r hr => h r (List.mem_cons_of_mem _ hr))]
    by_cases ht : tuid p = t
    · simp [Function.update_apply, ht]
    · simp [Function.update_apply, ht, Ne.symm ht]

/-- The instrumented fold computes the same index as the plain fold. -/
theorem okStep_fold_fst (ps : List T) :
    ∀ (m : String → List T) (b : Bool),
      (ps.foldl applyOverlaysOkStep (m, b)).1 = ps.foldl applyOverlaysStep m := by
  induction ps with
  | nil => intro m b; rfl
  | cons p ps ih => intro m b; exact ih _ _

/-- The ok flag never recovers once false. -/
theorem okStep_fold_false (ps : List T) :
    ∀ (m : String → List T), (ps.foldl applyOverlaysOkStep (m, false)).2 = false := by
  induction ps with
  | nil => intro m; rfl
  | cons p ps ih =>
    intro m
    have : applyOverlaysOkStep (m, false) p = (applyOverlaysStep m p, false) := by
      unfold applyOverlaysOkStep
      simp
    rw [List.foldl_cons, this]
    exact ih _

/-- Permanent records do not touch the ok flag. -/
theorem perms_ok_fold (ps : List T) (h : ∀ r ∈ ps, stp r = STP.Permanent) :
    ∀ (m : String → List T) (b : Bool),
      ps.foldl applyOverlaysOkStep (m, b) = (ps.foldl applyOverlaysStep m, b) := by
  induction ps with
  | nil => intro m b; rfl
  | cons p ps ih =>
    intro m b
    have hp : stp p = STP.Permanent := h p (by simp)
    have : applyOverlaysOkStep (m, b) p = (applyOverlaysStep m p, b) := by
      unfold applyOverlaysOkStep
      simp [hp]
    rw [List.foldl_cons, this, List.foldl_cons]
    exact ih (fun r hr => h r (List.mem_cons_of_mem _ hr)) _ _

/-- Folding the non-Permanent records preserves pairwise non-overlap of every
TUID's list, provided no base record is dropped along the way. -/
theorem rest_fold (rs : List T) :
    ∀ (m : String → List T),
      (∀ r ∈ rs, stp r ≠ STP.Permanent) →
      (rs.foldl applyOverlaysOkStep (m, true)).2 = true →
      (∀ t, (m t).Pairwise
        (fun a b => (calendar a).getOverlap (calendar b) = .None)) →
      ∀ t, ((rs.foldl applyOverlaysStep m) t).Pairwise
        (fun a b => (calendar a).getOverlap (calendar b) = .None) := by
  induction rs with
  | nil => intro m _ _ hm t; exact hm t
  | cons r rs ih =>
    intro m hstp hok hm t
    have hr : stp r ≠ STP.Permanent := hstp r (by simp)
    have hokstep : applyOverlaysOkStep (m, true) r =
        (applyOverlaysStep m r,
          overlayLoopOk r (m (tuid r)).length (m (tuid r)) 0) := by
      unfold applyOverlaysOkStep
      simp [hr]
    rw [List.foldl_cons] at hok ⊢
    rw [hokstep] at hok
    cases hcase : overlayLoopOk r (m (tuid r)).length (m (tuid r)) 0 with
    | false =>
      rw [hcase] at hok
      rw [okStep_fold_false] at hok
      exact absurd hok (by simp)
    | true =>
      rw [hcase] at hok
      have hloop := overlayLoop_invariant r (m (tuid r)).length (m (tuid r)) 0
        hcase (by omega) (hm (tuid r)) (by intro j hj hj0; omega)
      have hm' : ∀ t', ((applyOverlaysStep m r) t').Pairwise
          (fun a b => (calendar a).getOverlap (calendar b) = .None) := by
        intro t'
        unfold applyOverlaysStep
        rw [Function.update_apply]
        split_ifs with ht' hc
        · rw [List.pairwise_append]
          refine ⟨hloop.1, by simp, ?_⟩
          intro x hx y hy
          simp only [List.mem_singleton] at hy
          subst hy
          exact hloop.2 x hx
        · exact hloop.1
        · exact hm t'
      exact ih (applyOverlaysStep m r)
        (fun x hx => hstp x (List.mem_cons_of_mem _ hx)) hok hm' t

/-- Claim C1, amended.  For an input list pre-sorted so that Permanent
records come first and the Cancellation/Overlay/New records follow in id
order, and such that (i) the Permanent records of each TUID are pairwise
non-overlapping and (ii) no overlay application ever annihilates a base
record (`applyOverlaysOk`), any two distinct records of the index returned
by `applyOverlays` under the same TUID have calendars whose `getOverlap` is
`None`.  Without (i) two overlapping Permanents survive untouched, and
without (ii) the `splice` of a dropped base makes the `for...of` iterator
skip the next base record, which then keeps its overlap. -/
theorem applyOverlays_pairwise_nonoverlap (perms rest : List T)
    (hperm : ∀ r ∈ perms, stp r = STP.Permanent)
    (hrest : ∀ r ∈ rest, stp r ≠ STP.Permanent)
    (_hsorted : rest.Pairwise (fun a b => rid a ≤ rid b))
    (hdisj : perms.Pairwise (fun a b => tuid a = tuid b →
      (calendar a).getOverlap (calendar b) = .None))
    (hok : applyOverlaysOk (perms ++ rest) = true) :
    ∀ t, ((applyOverlays (perms ++ rest)) t).Pairwise
      (fun a b => (calendar a).getOverlap (calendar b) = .None) := by
  intro t
  unfold applyOverlays
  rw [List.foldl_append]
  unfold applyOverlaysOk at hok
  rw [List.foldl_append, perms_ok_fold perms hperm] at hok
  have hm0 : ∀ t', ((perms.foldl applyOverlaysStep (fun _ => [])) t').Pairwise
      (fun a b => (calendar a).getOverlap (calendar b) = .None) := by
    intro t'
    rw [perms_fold perms hperm]
    simp only [List.nil_append]
    refine List.Pairwise.imp_of_mem ?_ (List.Pairwise.filter _ hdisj)
    intro a b ha hb hab
    have ha' := (List.mem_filter.mp ha).2
    have hb' := (List.mem_filter.mp hb).2
    simp only [beq_iff_eq] at ha' hb'
    exact hab (ha'.trans hb'.symm)
  exact rest_fold rest _ hrest hok hm0 t

end OverlayProofs

/-- A minimal concrete overlay record, used to run `applyOverlays` on
explicit inputs.  `clone` replaces the calendar and id and preserves the
other fields, as the `OverlayRecord` interface requires. -/
structure OverlayRec where
  rid : Nat
  tuid : String
  stp : STP
  calendar : ScheduleCalendar
deriving DecidableEq

instance : OverlayRecordC OverlayRec where
  rid := OverlayRec.rid
  tuid := OverlayRec.tuid
  stp := OverlayRec.stp
  calendar := OverlayRec.calendar
  clone := fun x c n => { x with calendar := c, rid := n }
  calendar_clone := fun _ _ _ => rfl
  tuid_clone := fun _ _ _ => rfl

/-- Claim C1, counterexample.  Two Permanent records under the same TUID with
overlapping calendars satisfy the claim's pre-sort hypothesis (Permanent
records first), yet `applyOverlays` indexes both untouched and their
`getOverlap` is `Short`, not `None`. -/
theorem applyOverlays_overlapping_permanents_cex :
    (∀ r ∈ [(⟨1, "T1", STP.Permanent, ⟨0, 6, ALL_DAYS, ∅⟩⟩ : OverlayRec),
        ⟨2, "T1", STP.Permanent, ⟨3, 9, ALL_DAYS, ∅⟩⟩],
      OverlayRecordC.stp r = STP.Permanent) ∧
    (applyOverlays [(⟨1, "T1", STP.Permanent, ⟨0, 6, ALL_DAYS, ∅⟩⟩ : OverlayRec),
        ⟨2, "T1", STP.Permanent, ⟨3, 9, ALL_DAYS, ∅⟩⟩]) "T1" =
      [⟨1, "T1", STP.Permanent, ⟨0, 6, ALL_DAYS, ∅⟩⟩,
        ⟨2, "T1", STP.Permanent, ⟨3, 9, ALL_DAYS, ∅⟩⟩] ∧
    ScheduleCalendar.getOverlap ⟨0, 6, ALL_DAYS, ∅⟩ ⟨3, 9, ALL_DAYS, ∅⟩ ≠
      ScheduleCalendar.OverlapType.None := by
  refine ⟨by decide, by decide, by decide⟩

/-- Witness for the amended C1 theorem: one Permanent record and one
Overlay record that cuts three days out of it. -/
theorem applyOverlays_pairwise_nonoverlap_witness :
    ((applyOverlays
        ([(⟨1, "T1", STP.Permanent, ⟨0, 30, ALL_DAYS, ∅⟩⟩ : OverlayRec)] ++
          [⟨2, "T1", STP.Overlay, ⟨10, 12, ALL_DAYS, ∅⟩⟩])) "T1").Pairwise
      (fun a b => (OverlayRecordC.calendar a).getOverlap
        (OverlayRecordC.calendar b) = .None) :=
  applyOverlays_pairwise_nonoverlap
    ([⟨1, "T1", STP.Permanent, ⟨0, 30, ALL_DAYS, ∅⟩⟩] : List OverlayRec)
    ([⟨2, "T1", STP.Overlay, ⟨10, 12, ALL_DAYS, ∅⟩⟩] : List OverlayRec)
    (by decide) (by decide) (by decide) (by decide) (by decide) "T1"

/-! ## String and JavaScript-semantics helpers -/

/-- JavaScript truthiness of a nullable string: `null` and `""` are falsy. -/
def jsTruthy : Option String → Bool
  | none => false
  | some s => !s.isEmpty

/-- JavaScript `a || b` on nullable strings. -/
def jsOr (a b : Option String) : Option String :=
  if jsTruthy a then a else b

/-- JavaScript string interpolation of a nullable string (`${null}` is the
text `null`). -/
def jsStr (o : Option String) : String := o.getD "null"

/-- Digit-prefix parse mimicking JavaScript `parseInt(s, 10)` on the strings
that occur in time fields: the longest digit prefix, `none` (NaN) when the
string starts with no digit. -/
def jsParseInt (s : String) : Option Nat :=
  let ds := s.toList.takeWhile Char.isDigit
  if ds.isEmpty then none
  else some (ds.foldl (fun n c => n * 10 + (c.toNat - 48)) 0)

/-- Split a string into two-character codes (`.match(/.{1,2}/g)`; a trailing
odd character forms a one-character code). -/
def chunk2 : List Char → List String
  | [] => []
  | [c] => [String.mk [c]]
  | a :: b :: rest => String.mk [a, b] :: chunk2 rest

/-- `(row.activity ?? '').match(/.{1,2}/g) || []` -/
def activityCodes (activity : Option String) : List String :=
  chunk2 (activity.getD "").toList

/-- Two-digit zero-padded decimal. -/
def pad2 (n : Nat) : String :=
  if n < 10 then "0" ++ toString n else toString n

/-- Four-digit zero-padded decimal year. -/
def pad4 (y : Int) : String :=
  if y < 0 then toString y
  else
    let m := y.toNat
    if m < 10 then "000" ++ toString m
    else if m < 100 then "00" ++ toString m
    else if m < 1000 then "0" ++ toString m
    else toString m

/-- Convert an absolute day number (day 0 = 2017-01-01) to `YYYYMMDD` text,
modelling `moment(date).format('YYYYMMDD')` (standard civil-from-days
conversion). -/
def fmtYYYYMMDD (d : Int) : String :=
  let z := d + 17167 + 719468
  let era := (if 0 ≤ z then z else z - 146096) / 146097
  let doe := (z - era * 146097).toNat
  let yoe := (doe - doe / 1460 + doe / 36524 - doe / 146096) / 365
  let y : Int := (yoe : Int) + era * 400
  let doy := doe - (365 * yoe + yoe / 4 - yoe / 100)
  let mp := (5 * doy + 2) / 153
  let dd := doy - (153 * mp + 2) / 5 + 1
  let mm := if mp < 10 then mp + 3 else mp - 9
  let yy := if mm ≤ 2 then y + 1 else y
  pad4 yy ++ pad2 mm ++ pad2 dd

/-! ## StopTime and Schedule (`src/gtfs/file/StopTime.ts`,
`src/gtfs/native/Schedule.ts`) -/

structure StopTime where
  trip_id : String
  arrival_time : Option String
  departure_time : Option String
  stop_id : String
  stop_code : String
  tiploc_code : String
  stop_sequence : Nat
  stop_headsign : Option String
  pickup_type : Nat
  drop_off_type : Nat
  shape_dist_traveled : Option Nat
  timepoint : Nat
deriving DecidableEq

structure Schedule where
  id : Nat
  tripId : String
  stopTimes : List StopTime
  tuid : String
  rsid : Option String
  calendar : ScheduleCalendar
  mode : RouteType
  operator : Option String
  stp : STP
  firstClassAvailable : Bool
  reservationPossible : Bool
deriving DecidableEq

/-- `Schedule.clone`: clone the current record with the new calendar and id;
every other field — including `tripId` — is carried over unchanged. -/
def Schedule.clone (s : Schedule) (calendar : ScheduleCalendar)
    (scheduleId : Nat) : Schedule :=
  ⟨scheduleId, s.tripId, s.stopTimes, s.tuid, s.rsid, calendar, s.mode,
    s.operator, s.stp, s.firstClassAvailable, s.reservationPossible⟩

instance : OverlayRecordC Schedule where
  rid := Schedule.id
  tuid := Schedule.tuid
  stp := Schedule.stp
  calendar := Schedule.calendar
  clone := Schedule.clone
  calendar_clone := fun _ _ _ => rfl
  tuid_clone := fun _ _ _ => rfl

/-! ## Streaming schedule builder (`ScheduleBuilder`, the variant with the
activity lists `["T ", "TB", "TF", "U "]` / `["T ", "TB", "TF", "D "]`) -/

/-- One row of the schedule stop-time query
(`CIFRepository.ScheduleStopTimeRow`); dates are absolute day numbers, the
seven day flags are the source's 0/1 columns. -/
structure ScheduleStopTimeRow where
  id : Nat
  train_uid : String
  retail_train_id : Option String
  runs_from : Int
  runs_to : Int
  monday : Bool
  tuesday : Bool
  wednesday : Bool
  thursday : Bool
  friday : Bool
  saturday : Bool
  sunday : Bool
  stp_indicator : STP
  atco_code : String
  location : String
  crs_code : String
  train_category : String
  atoc_code : Option String
  public_arrival_time : Option String
  public_departure_time : Option String
  scheduled_arrival_time : Option String
  scheduled_departure_time : Option String
  platform : String
  activity : Option String
  train_class : Option String
  reservations : Option String
deriving DecidableEq

def pickupActivities : List String := ["T ", "TB", "TF", "U "]
def dropOffActivities : List String := ["T ", "TB", "TF", "D "]
def coordinatedActivity : List String := ["R "]
def notAdvertised : String := "N "

/-- `ScheduleBuilder.getTripId`: derived trip id
`{tuid}_{runsFrom:YYYYMMDD}_{runsTo:YYYYMMDD}`. -/
def getTripId (row : ScheduleStopTimeRow) : String :=
  row.train_uid ++ "_" ++ fmtYYYYMMDD row.runs_from ++ "_" ++ fmtYYYYMMDD row.runs_to

/-- `ScheduleBuilder.formatTime`: midnight-rollover normalisation.  The
origin departure hour is `none` when it was parsed as NaN; NaN comparisons
are false, leaving the time unchanged. -/
def formatTime (time : Option String) (originDepartureHour : Option Nat) :
    Option String :=
  match time with
  | none => none
  | some t =>
    match jsParseInt (t.take 2), originDepartureHour with
    | some departureHour, some origin =>
      if 4 ≤ origin ∧ departureHour < origin then
        some (toString (departureHour + 24) ++ t.drop 2)
      else some t
    | _, _ => some t

/-- `ScheduleBuilder.createStop`. -/
def createStop (row : ScheduleStopTimeRow) (stopId : Nat)
    (departHour : Option Nat) : StopTime :=
  let usePublic := jsTruthy row.public_arrival_time || jsTruthy row.public_departure_time
  let arrivalTime := if usePublic then formatTime row.public_arrival_time departHour else none
  let departureTime := if usePublic then formatTime row.public_departure_time departHour else none
  let activities := activityCodes row.activity
  let pickup := if (pickupActivities.any (fun a => activities.contains a))
      && !(activities.contains notAdvertised) then 0 else 1
  let coordinatedDropOff := if coordinatedActivity.any (fun a => activities.contains a)
      then 3 else 0
  let dropOff := if (dropOffActivities.any (fun a => activities.contains a))
      && !(activities.contains notAdvertised) then 0 else 1
  { trip_id := getTripId row
    arrival_time := if activities.contains notAdvertised then none
      else jsOr arrivalTime departureTime
    departure_time := if activities.contains notAdvertised then none
      else jsOr departureTime arrivalTime
    stop_id := row.atco_code
    stop_code := row.crs_code
    tiploc_code := row.location
    stop_sequence := stopId
    stop_headsign := none
    pickup_type := if coordinatedDropOff ≠ 0 then coordinatedDropOff else pickup
    drop_off_type := if coordinatedDropOff ≠ 0 then coordinatedDropOff else dropOff
    shape_dist_traveled := none
    timepoint := 1 }

/-- The static `train_category → RouteType` map. -/
def routeTypeIndex (cat : String) : Option RouteType :=
  if cat = "OO" ∨ cat = "XX" ∨ cat = "XZ" ∨ cat = "XC" then some RouteType.Rail
  else if cat = "BR" then some RouteType.ReplacementBus
  else if cat = "BS" then some RouteType.Bus
  else if cat = "OL" then some RouteType.Subway
  else if cat = "SS" then some RouteType.Ferry
  else none

/-- `ScheduleBuilder.createSchedule`.  The `agencies` config table (an
external collaborator) is abstracted by the list of its agency ids. -/
def createSchedule (agencyIds : List String) (row : ScheduleStopTimeRow)
    (stops : List StopTime) : Schedule :=
  let mode := (routeTypeIndex row.train_category).getD RouteType.Rail
  { id := row.id
    tripId := getTripId row
    stopTimes := stops
    tuid := row.train_uid
    rsid := row.retail_train_id
    calendar := ⟨row.runs_from, row.runs_to,
      ⟨row.sunday, row.monday, row.tuesday, row.wednesday, row.thursday,
        row.friday, row.saturday⟩, ∅⟩
    mode := mode
    operator := if agencyIds.contains ("=" ++ jsStr row.atoc_code)
      then row.atoc_code else some "ZZ"
    stp := row.stp_indicator
    firstClassAvailable := (mode == RouteType.Rail) && (row.train_class != some "S")
    reservationPossible := row.reservations != none }

/-- On entering a new schedule id: the two-digit hour of the row's public
arrival time if set, else of its public departure time, else 4. -/
def entryDepartureHour (row : ScheduleStopTimeRow) : Option Nat :=
  if jsTruthy row.public_arrival_time then
    jsParseInt ((row.public_arrival_time.getD "").take 2)
  else if jsTruthy row.public_departure_time then
    jsParseInt ((row.public_departure_time.getD "").take 2)
  else some 4

/-- Mutable state of the `loadSchedules` row fold. -/
structure BuilderState where
  schedules : List Schedule
  stops : List StopTime
  prevRow : Option ScheduleStopTimeRow
  departureHour : Option Nat
deriving DecidableEq

/-- One `results.on("result", ...)` callback invocation of
`ScheduleBuilder.loadSchedules`. -/
def loadSchedulesStep (agencyIds : List String) (st : BuilderState)
    (row : ScheduleStopTimeRow) : BuilderState :=
  let entered :=
    match st.prevRow with
    | some prev =>
      if prev.id ≠ row.id then
        (st.schedules ++ [createSchedule agencyIds prev st.stops],
          ([] : List StopTime), entryDepartureHour row)
      else (st.schedules, st.stops, st.departureHour)
    | none => (st.schedules, st.stops, st.departureHour)
  let stops :=
    if row.stp_indicator ≠ STP.Cancellation then
      let stop := createStop row (entered.2.1.length + 1) entered.2.2
      match st.prevRow with
      | some prev =>
        if prev.id = row.id ∧ row.crs_code = prev.crs_code then
          if stop.pickup_type = 0 ∨ stop.drop_off_type = 0 then
            entered.2.1.set (entered.2.1.length - 1)
              { stop with stop_sequence := entered.2.1.length }
          else entered.2.1
        else entered.2.1 ++ [stop]
      | none => entered.2.1 ++ [stop]
    else entered.2.1
  ⟨entered.1, stops, some row, entered.2.2⟩

/-- The builder state after folding a row stream. -/
def builderStateAfter (agencyIds : List String)
    (rows : List ScheduleStopTimeRow) : BuilderState :=
  rows.foldl (loadSchedulesStep agencyIds) ⟨[], [], none, some 4⟩

/-- `ScheduleBuilder.loadSchedules`: fold the row stream and flush the final
schedule on the `end` event. -/
def loadSchedules (agencyIds : List String)
    (rows : List ScheduleStopTimeRow) : List Schedule :=
  let st := builderStateAfter agencyIds rows
  match st.prevRow with
  | some prev => st.schedules ++ [createSchedule agencyIds prev st.stops]
  | none => st.schedules

theorem builderStateAfter_take_succ (ag : List String)
    (rows : List ScheduleStopTimeRow) (k : Nat) (hk : k < rows.length) :
    builderStateAfter ag (rows.take (k + 1)) =
      loadSchedulesStep ag (builderStateAfter ag (rows.take k)) rows[k] := by
  unfold builderStateAfter
  have h : rows.take (k + 1) = rows.take k ++ [rows[k]] := by
    rw [List.take_succ, List.getElem?_eq_getElem hk]
    rfl
  rw [h, List.foldl_append]
  rfl

theorem loadSchedulesStep_prevRow (ag : List String) (st : BuilderState)
    (row : ScheduleStopTimeRow) :
    (loadSchedulesStep ag st row).prevRow = some row := rfl

theorem builderStateAfter_prevRow (ag : List String)
    (rows : List ScheduleStopTimeRow) (k : Nat) (hk : k < rows.length) :
    (builderStateAfter ag (rows.take (k + 1))).prevRow = some rows[k] := by
  rw [builderStateAfter_take_succ ag rows k hk]
  rfl

theorem loadSchedulesStep_departureHour (ag : List String) (st : BuilderState)
    (row : ScheduleStopTimeRow) :
    (loadSchedulesStep ag st row).departureHour =
      match st.prevRow with
      | some prev => if prev.id ≠ row.id then entryDepartureHour row
          else st.departureHour
      | none => st.departureHour := by
  unfold loadSchedulesStep
  cases st.prevRow with
  | none => rfl
  | some prev =>
    by_cases h : prev.id ≠ row.id <;> simp [h]

/-- The departure hour set on schedule entry stays in effect while the
schedule's rows keep the same id. -/
theorem departureHour_persists (ag : List String)
    (rows : List ScheduleStopTimeRow) (i : Nat) (hi0 : 0 < i)
    (hiLen : i < rows.length)
    (htrans : (rows[i-1]).id ≠ rows[i].id) :
    ∀ j, i ≤ j → ∀ (_hj : j < rows.length),
      (∀ k (hk : k < rows.length), i ≤ k → k ≤ j → rows[k].id = rows[i].id) →
      (builderStateAfter ag (rows.take (j + 1))).departureHour =
        entryDepartureHour rows[i] := by
  intro j hij
  induction j, hij using Nat.le_induction with
  | base =>
    intro hj _
    rw [builderStateAfter_take_succ ag rows i hj, loadSchedulesStep_departureHour]
    have hprev := builderStateAfter_prevRow ag rows (i - 1) (by omega)
    rw [show i - 1 + 1 = i by omega] at hprev
    rw [hprev]
    simp [htrans]
  | succ j hij ih =>
    intro hj hsame
    have hj' : j < rows.length := by omega
    have heq : (rows[j + 1]).id = rows[i].id :=
      hsame (j + 1) hj (by omega) (by omega)
    have heq' : (rows[j]).id = rows[i].id :=
      hsame j hj' (by omega) (by omega)
    rw [builderStateAfter_take_succ ag rows (j + 1) hj,
      loadSchedulesStep_departureHour,
      builderStateAfter_prevRow ag rows j hj']
    simp only [heq.trans heq'.symm, ne_eq, not_true_eq_false, if_false]
    exact ih hj' (fun k hk h1 h2 => hsame k hk h1 (by omega))

/-- Claim C2.  (1) On entering a new schedule id (a row whose id differs from
the previous row's), the departure hour in effect for every row of that
schedule is the two-digit hour parsed from the entering row's public arrival
time if set, else its public departure time, else 4.  (2) `formatTime` adds
24 to the parsed hour exactly when the origin departure hour is at least 4
and the parsed hour is strictly below it, and otherwise returns the time
unchanged.  (3) `createStop` formats both the arrival and the departure
through `formatTime`. -/
theorem scheduleBuilder_departure_hour_and_rollover (ag : List String)
    (rows : List ScheduleStopTimeRow) (i j : Nat)
    (hi0 : 0 < i) (hij : i ≤ j) (hj : j < rows.length)
    (htrans : (rows[i-1]).id ≠ (rows[i]).id)
    (hsame : ∀ k (hk : k < rows.length), i ≤ k → k ≤ j →
      rows[k].id = (rows[i]).id) :
    (builderStateAfter ag (rows.take (j + 1))).departureHour =
      entryDepartureHour (rows[i]) ∧
    (∀ (t : String) (h dep : Nat), jsParseInt (t.take 2) = some h →
      (4 ≤ dep ∧ h < dep →
        formatTime (some t) (some dep) = some (toString (h + 24) ++ t.drop 2)) ∧
      (¬(4 ≤ dep ∧ h < dep) → formatTime (some t) (some dep) = some t)) ∧
    (∀ (row : ScheduleStopTimeRow) (n : Nat) (dep : Option Nat),
      (activityCodes row.activity).contains notAdvertised = false →
      (jsTruthy row.public_arrival_time || jsTruthy row.public_departure_time) = true →
      (createStop row n dep).arrival_time =
        jsOr (formatTime row.public_arrival_time dep)
          (formatTime row.public_departure_time dep) ∧
      (createStop row n dep).departure_time =
        jsOr (formatTime row.public_departure_time dep)
          (formatTime row.public_arrival_time dep)) := by
  refine ⟨departureHour_persists ag rows i hi0 (by omega) htrans j hij hj hsame,
    ?_, ?_⟩
  · -- part 2: the rollover rule of formatTime
    intro t h dep hparse
    refine ⟨?_, ?_⟩ <;> intro hcond <;> simp [formatTime, hparse, hcond]
  · -- part 3: the rule is applied to both arrival and departure
    intro row n dep hN hpub
    have hN' : notAdvertised ∉ activityCodes row.activity := by
      simpa using hN
    unfold createStop
    simp [hN', hpub]

/-- Witness for C2 at a concrete three-row stream: rows 2 and 3 form a new
schedule entered at index 1, whose public departure time 23:30 sets the
departure hour to 23; a 00:10 stop then rolls over to 24:10. -/
theorem scheduleBuilder_departure_hour_witness :
    (builderStateAfter []
        ([{ id := 1, train_uid := "T1", retail_train_id := none, runs_from := 0,
            runs_to := 30, monday := true, tuesday := true, wednesday := true,
            thursday := true, friday := true, saturday := true, sunday := true,
            stp_indicator := STP.Permanent, atco_code := "A1", location := "L1",
            crs_code := "C1", train_category := "OO", atoc_code := none,
            public_arrival_time := none, public_departure_time := some "10:00",
            scheduled_arrival_time := none, scheduled_departure_time := none,
            platform := "1", activity := some "TB", train_class := none,
            reservations := none },
          { id := 2, train_uid := "T2", retail_train_id := none, runs_from := 0,
            runs_to := 30, monday := true, tuesday := true, wednesday := true,
            thursday := true, friday := true, saturday := true, sunday := true,
            stp_indicator := STP.Permanent, atco_code := "A2", location := "L2",
            crs_code := "C2", train_category := "OO", atoc_code := none,
            public_arrival_time := none, public_departure_time := some "23:30",
            scheduled_arrival_time := none, scheduled_departure_time := none,
            platform := "1", activity := some "TB", train_class := none,
            reservations := none },
          { id := 2, train_uid := "T2", retail_train_id := none, runs_from := 0,
            runs_to := 30, monday := true, tuesday := true, wednesday := true,
            thursday := true, friday := true, saturday := true, sunday := true,
            stp_indicator := STP.Permanent, atco_code := "A3", location := "L3",
            crs_code := "C3", train_category := "OO", atoc_code := none,
            public_arrival_time := some "00:10", public_departure_time := none,
            scheduled_arrival_time := none, scheduled_departure_time := none,
            platform := "1", activity := some "TF", train_class := none,
            reservations := none }].take 3)).departureHour = some 23 := by
  have h := scheduleBuilder_departure_hour_and_rollover []
    [{ id := 1, train_uid := "T1", retail_train_id := none, runs_from := 0,
        runs_to := 30, monday := true, tuesday := true, wednesday := true,
        thursday := true, friday := true, saturday := true, sunday := true,
        stp_indicator := STP.Permanent, atco_code := "A1", location := "L1",
        crs_code := "C1", train_category := "OO", atoc_code := none,
        public_arrival_time := none, public_departure_time := some "10:00",
        scheduled_arrival_time := none, scheduled_departure_time := none,
        platform := "1", activity := some "TB", train_class := none,
        reservations := none },
      { id := 2, train_uid := "T2", retail_train_id := none, runs_from := 0,
        runs_to := 30, monday := true, tuesday := true, wednesday := true,
        thursday := true, friday := true, saturday := true, sunday := true,
        stp_indicator := STP.Permanent, atco_code := "A2", location := "L2",
        crs_code := "C2", train_category := "OO", atoc_code := none,
        public_arrival_time := none, public_departure_time := some "23:30",
        scheduled_arrival_time := none, scheduled_departure_time := none,
        platform := "1", activity := some "TB", train_class := none,
        reservations := none },
      { id := 2, train_uid := "T2", retail_train_id := none, runs_from := 0,
        runs_to := 30, monday := true, tuesday := true, wednesday := true,
        thursday := true, friday := true, saturday := true, sunday := true,
        stp_indicator := STP.Permanent, atco_code := "A3", location := "L3",
        crs_code := "C3", train_category := "OO", atoc_code := none,
        public_arrival_time := some "00:10", public_departure_time := none,
        scheduled_arrival_time := none, scheduled_departure_time := none,
        platform := "1", activity := some "TF", train_class := none,
        reservations := none }]
    1 2 (by decide) (by decide) (by decide) (by decide)
    (by intro k hk h1 h2; interval_cases k <;> simp_all)
  calc (builderStateAfter [] _).departureHour
      = entryDepartureHour _ := h.1
    _ = some 23 := by decide

/-- The pickup rule as the claim states it: pickup allowed (0) iff any of
`{"T ", "TB", "U "}` is present and `"N "` absent. -/
def claimPickupAllowed (activities : List String) : Bool :=
  (["T ", "TB", "U "] : List String).any (fun a => activities.contains a)
    && !(activities.contains "N ")

/-- The drop-off rule as the claim states it: drop-off allowed (0) iff any of
`{"T ", "TF", "D "}` is present and `"N "` absent. -/
def claimDropOffAllowed (activities : List String) : Bool :=
  (["T ", "TF", "D "] : List String).any (fun a => activities.contains a)
    && !(activities.contains "N ")

/-- A concrete stop-time row with activity `"TF"` only. -/
def c3RowTF : ScheduleStopTimeRow where
  id := 1
  train_uid := "T1"
  retail_train_id := none
  runs_from := 0
  runs_to := 30
  monday := true
  tuesday := true
  wednesday := true
  thursday := true
  friday := true
  saturday := true
  sunday := true
  stp_indicator := STP.Permanent
  atco_code := "A1"
  location := "L1"
  crs_code := "C1"
  train_category := "OO"
  atoc_code := none
  public_arrival_time := some "10:30"
  public_departure_time := none
  scheduled_arrival_time := none
  scheduled_departure_time := none
  platform := "1"
  activity := some "TF"
  train_class := none
  reservations := none

/-- Claim C3, counterexample.  The builder's activity lists are
`["T ", "TB", "TF", "U "]` and `["T ", "TB", "TF", "D "]`, not the claimed
`{"T ", "TB", "U "}` / `{"T ", "TF", "D "}`: a stop whose activity field is
exactly `"TF"` gets `pickup_type = 0` although the claimed rule yields 1,
and a stop with `"TB"` gets `drop_off_type = 0` although the claimed rule
yields 1. -/
theorem createStop_activity_sets_cex :
    (createStop c3RowTF 1 (some 4)).pickup_type = 0 ∧
    claimPickupAllowed (activityCodes c3RowTF.activity) = false ∧
    (createStop { c3RowTF with activity := some "TB" } 1 (some 4)).drop_off_type = 0 ∧
    claimDropOffAllowed
      (activityCodes ({ c3RowTF with activity := some "TB" }).activity) = false := by
  refine ⟨by decide, by decide, by decide, by decide⟩

/-- Claim C3, amended.  For every stop-time row built by the streaming
schedule builder: pickup_type is 3 if `"R "` is present, else 0 iff the
activity codes contain any of `{"T ", "TB", "TF", "U "}` and do not contain
`"N "`, else 1; drop_off_type is 3 if `"R "` is present, else 0 iff they
contain any of `{"T ", "TB", "TF", "D "}` and do not contain `"N "`, else 1;
and if `"N "` is present both arrival_time and departure_time are null. -/
theorem createStop_activity_rules (row : ScheduleStopTimeRow) (n : Nat)
    (dh : Option Nat) :
    ((createStop row n dh).pickup_type =
      if (activityCodes row.activity).contains "R " then 3
      else if (pickupActivities.any (fun a => (activityCodes row.activity).contains a))
          && !((activityCodes row.activity).contains notAdvertised) then 0 else 1) ∧
    ((createStop row n dh).drop_off_type =
      if (activityCodes row.activity).contains "R " then 3
      else if (dropOffActivities.any (fun a => (activityCodes row.activity).contains a))
          && !((activityCodes row.activity).contains notAdvertised) then 0 else 1) ∧
    ((activityCodes row.activity).contains notAdvertised = true →
      (createStop row n dh).arrival_time = none ∧
      (createStop row n dh).departure_time = none) := by
  unfold createStop
  simp only [coordinatedActivity, List.any_cons, List.any_nil, Bool.or_false]
  refine ⟨?_, ?_, ?_⟩
  · split_ifs <;> simp_all
  · split_ifs <;> simp_all
  · intro hN
    have hN' : notAdvertised ∈ activityCodes row.activity := by simpa using hN
    simp [hN']

/-- Witness for the amended C3 theorem: a row with activity `"T N "` has both
times null, `pickup_type = 1` and `drop_off_type = 1`. -/
theorem createStop_activity_rules_witness :
    (createStop { c3RowTF with activity := some "T N " } 1 (some 4)).arrival_time
        = none ∧
    (createStop { c3RowTF with activity := some "T N " } 1 (some 4)).departure_time
        = none :=
  (createStop_activity_rules { c3RowTF with activity := some "T N " } 1
    (some 4)).2.2 (by decide)

/-! ## Schedule flattener (`mergeSchedules`, the variant with the
no-public-call skip rule) -/

/-- A schedule has a public call when some stop has a non-null departure or
arrival time. -/
def hasPublicCall (s : Schedule) : Bool :=
  s.stopTimes.any (fun item => item.departure_time != none || item.arrival_time != none)

/-- The message of the fatal duplicate-trip-id error. -/
def duplicateTripIdMessage (tripId : String) : String :=
  "Duplicate trip_id " ++ tripId ++
    " detected. This should not happen. Please file a bug report."

/-- The schedule loop of `mergeSchedules`, threading the insertion-ordered
`schedulesByTripId` object as an association list. -/
def mergeSchedulesGo (acc : List (String × Schedule)) :
    List Schedule → Except String (List (String × Schedule))
  | [] => .ok acc
  | s :: rest =>
    if hasPublicCall s = false then mergeSchedulesGo acc rest
    else if acc.any (fun p => p.1 == s.tripId) then
      .error (duplicateTripIdMessage s.tripId)
    else mergeSchedulesGo (acc ++ [(s.tripId, s)]) rest

/-- `mergeSchedules`: flatten the TUID index into a list of schedules,
ensuring that there are no duplicate trip ids.  The thrown `Error` is
modelled as the `Except.error` case; `Object.values` of the string-keyed
object returns its values in insertion order. -/
def mergeSchedules (idx : List (String × List Schedule)) :
    Except String (List Schedule) :=
  (mergeSchedulesGo [] (idx.flatMap (fun p => p.2))).map
    (fun l => l.map (fun p => p.2))

/-- The schedules of the index that have a public call, in iteration order. -/
def retainedSchedules (idx : List (String × List Schedule)) : List Schedule :=
  (idx.flatMap (fun p => p.2)).filter hasPublicCall

theorem mergeSchedulesGo_ok :
    ∀ (l : List Schedule) (acc : List (String × Schedule)),
      ((l.filter hasPublicCall).map Schedule.tripId).Nodup →
      (∀ s ∈ l.filter hasPublicCall, ∀ p ∈ acc, p.1 ≠ s.tripId) →
      mergeSchedulesGo acc l =
        .ok (acc ++ (l.filter hasPublicCall).map (fun s => (s.tripId, s))) := by
  intro l
  induction l with
  | nil => intro acc _ _; simp [mergeSchedulesGo]
  | cons s rest ih =>
    intro acc hnd hacc
    unfold mergeSchedulesGo
    cases hpc : hasPublicCall s with
    | false =>
      simp only [hpc, if_pos rfl]
      rw [List.filter_cons_of_neg (by simp [hpc])] at hnd hacc ⊢
      exact ih acc hnd hacc
    | true =>
      rw [List.filter_cons_of_pos (by simp [hpc])] at hnd hacc ⊢
      have hany : acc.any (fun p => p.1 == s.tripId) = false := by
        rw [List.any_eq_false]
        intro p hp
        simpa using hacc s (by simp) p hp
      simp only [hpc, hany]
      simp only [List.map_cons, List.nodup_cons] at hnd
      rw [ih (acc ++ [(s.tripId, s)]) hnd.2 ?_]
      · simp
      · intro s' hs' p hp
        rcases List.mem_append.mp hp with hpa | hpb
        · exact hacc s' (List.mem_cons_of_mem _ hs') p hpa
        · simp only [List.mem_singleton] at hpb
          subst hpb
          intro hts
          refine hnd.1 ?_
          rw [show s.tripId = s'.tripId from hts]
          exact List.mem_map_of_mem Schedule.tripId hs'

theorem mergeSchedulesGo_err :
    ∀ (l : List Schedule) (acc : List (String × Schedule)),
      (acc.map Prod.fst).Nodup →
      ¬ (acc.map Prod.fst ++ (l.filter hasPublicCall).map Schedule.tripId).Nodup →
      ∃ t, mergeSchedulesGo acc l = .error (duplicateTripIdMessage t) ∧
        2 ≤ (acc.map Prod.fst ++ (l.filter hasPublicCall).map Schedule.tripId).count t := by
  intro l
  induction l with
  | nil =>
    intro acc hacc hdup
    simp only [List.filter_nil, List.map_nil, List.append_nil] at hdup
    exact absurd hacc hdup
  | cons s rest ih =>
    intro acc hacc hdup
    cases hpc : hasPublicCall s with
    | false =>
      have hstep : mergeSchedulesGo acc (s :: rest) = mergeSchedulesGo acc rest := by
        rw [mergeSchedulesGo, hpc]
        simp
      rw [List.filter_cons_of_neg (by simp [hpc])] at hdup ⊢
      rw [hstep]
      exact ih acc hacc hdup
    | true =>
      rw [List.filter_cons_of_pos (by simp [hpc])] at hdup ⊢
      cases hany : acc.any (fun p => p.1 == s.tripId) with
      | true =>
        have hstep : mergeSchedulesGo acc (s :: rest) =
            .error (duplicateTripIdMessage s.tripId) := by
          rw [mergeSchedulesGo, hpc, hany]
          simp
        refine ⟨s.tripId, hstep, ?_⟩
        obtain ⟨p, hp, hpk⟩ := List.any_eq_true.mp hany
        have hmem : s.tripId ∈ acc.map Prod.fst := by
          refine List.mem_map.mpr ⟨p, hp, ?_⟩
          simpa using hpk
        rw [List.count_append]
        have h1 : 1 ≤ (acc.map Prod.fst).count s.tripId :=
          List.one_le_count_iff.mpr hmem
        have h2 : 1 ≤ ((s.tripId :: (rest.filter hasPublicCall).map Schedule.tripId)).count s.tripId := by
          simp [List.count_cons]
        simp only [List.map_cons]
        omega
      | false =>
        have hstep : mergeSchedulesGo acc (s :: rest) =
            mergeSchedulesGo (acc ++ [(s.tripId, s)]) rest := by
          rw [mergeSchedulesGo, hpc, hany]
          simp
        rw [hstep]
        have hknew : s.tripId ∉ acc.map Prod.fst := by
          intro hmem
          obtain ⟨p, hp, hpk⟩ := List.mem_map.mp hmem
          have := List.any_eq_false.mp hany p hp
          simp [hpk] at this
        have hacc' : ((acc ++ [(s.tripId, s)]).map Prod.fst).Nodup := by
          rw [List.map_append]
          simp only [List.map_cons, List.map_nil]
          rw [List.nodup_append]
          refine ⟨hacc, by simp, ?_⟩
          intro a ha hb
          simp only [List.mem_singleton] at hb
          subst hb
          exact hknew ha
        have hperm : (acc ++ [(s.tripId, s)]).map Prod.fst ++
            (rest.filter hasPublicCall).map Schedule.tripId =
            acc.map Prod.fst ++
              ((s :: rest.filter hasPublicCall).map Schedule.tripId) := by
          simp
        have hdup' : ¬ ((acc ++ [(s.tripId, s)]).map Prod.fst ++
            (rest.filter hasPublicCall).map Schedule.tripId).Nodup := by
          rw [hperm]
          exact hdup
        obtain ⟨t, hgo, hcount⟩ := ih (acc ++ [(s.tripId, s)]) hacc' hdup'
        refine ⟨t, hgo, ?_⟩
        rw [hperm] at hcount
        simpa using hcount

/-- Claim C6.  The flattener omits every schedule whose stops contain no
public call; when two retained schedules share a trip id it throws the fatal
duplicate-trip-id error reporting the offending id; and otherwise it emits
exactly the retained schedules, each exactly once, keyed by trip id in
iteration order. -/
theorem mergeSchedules_characterization (idx : List (String × List Schedule)) :
    (((retainedSchedules idx).map Schedule.tripId).Nodup →
      mergeSchedules idx = .ok (retainedSchedules idx)) ∧
    (¬ ((retainedSchedules idx).map Schedule.tripId).Nodup →
      ∃ t, mergeSchedules idx = .error (duplicateTripIdMessage t) ∧
        2 ≤ ((retainedSchedules idx).map Schedule.tripId).count t) := by
  constructor
  · intro hnd
    unfold mergeSchedules
    rw [mergeSchedulesGo_ok (idx.flatMap (fun p => p.2)) [] hnd (by simp)]
    unfold retainedSchedules
    simp only [List.nil_append, Except.map, List.map_map]
    rw [show List.map ((fun p => p.2) ∘ fun s : Schedule => (s.tripId, s))
      ((idx.flatMap (fun p => p.2)).filter hasPublicCall) =
      List.map (fun s => s) ((idx.flatMap (fun p => p.2)).filter hasPublicCall) from rfl]
    rw [List.map_id']
  · intro hdup
    obtain ⟨t, hgo, hcount⟩ := mergeSchedulesGo_err (idx.flatMap (fun p => p.2)) []
      (by simp) (by simpa using hdup)
    refine ⟨t, ?_, by simpa using hcount⟩
    unfold mergeSchedules
    rw [hgo]
    rfl

/-- A stop with a public call. -/
def c6Stop : StopTime :=
  ⟨"t", some "10:00:00", some "10:00:00", "A", "C", "L", 1, none, 0, 0, none, 1⟩

/-- A schedule with one public call and the given trip id. -/
def c6Sched (tid : String) : Schedule :=
  ⟨1, tid, [c6Stop], "T1", none, ⟨0, 30, ALL_DAYS, ∅⟩, RouteType.Rail, none,
    STP.Permanent, true, false⟩

/-- A schedule with no public call (both times null on its only stop). -/
def c6SchedNoCall : Schedule :=
  ⟨2, "t2", [⟨"t2", none, none, "A", "C", "L", 1, none, 1, 1, none, 1⟩], "T2",
    none, ⟨0, 30, ALL_DAYS, ∅⟩, RouteType.Rail, none, STP.Permanent, true, false⟩

/-- Witness for C6 at concrete inputs: the no-call schedule is skipped and
the public one emitted; two retained schedules sharing a trip id raise the
duplicate error. -/
theorem mergeSchedules_characterization_witness :
    mergeSchedules [("T1", [c6Sched "a", c6SchedNoCall])] = .ok [c6Sched "a"] ∧
    (∃ t, mergeSchedules [("T1", [c6Sched "a", c6Sched "a"])] =
        .error (duplicateTripIdMessage t) ∧
      2 ≤ ((retainedSchedules [("T1", [c6Sched "a", c6Sched "a"])]).map
        Schedule.tripId).count t) :=
  ⟨by
    have h := (mergeSchedules_characterization
      [("T1", [c6Sched "a", c6SchedNoCall])]).1 (by decide)
    rw [h]
    simp only [Except.ok.injEq]
    decide,
   (mergeSchedules_characterization [("T1", [c6Sched "a", c6Sched "a"])]).2
    (by decide)⟩

/-! ## Associations (`src/gtfs/native/Association`, the null-safe variant
that also handles the Previous date indicator) -/

/-- `formatDuration` from `src/gtfs/native/Duration.ts`: seconds to
`HH:MM:SS` text (hours may exceed 23 and are not truncated). -/
def formatDuration (duration : Nat) : String :=
  let hours := duration / 3600
  let hoursFormatted := if hours < 10 then "0" ++ toString hours else toString hours
  let mins := (duration % 3600) / 60
  let minsFormatted := if mins < 10 then "0" ++ toString mins else toString mins
  let secs := duration % 60
  let secsFormatted := if secs < 10 then "0" ++ toString secs else toString secs
  hoursFormatted ++ ":" ++ minsFormatted ++ ":" ++ secsFormatted

/-- Split a character list on colons. -/
def splitColons : List Char → List (List Char)
  | [] => [[]]
  | c :: rest =>
    match splitColons rest, c with
    | r :: rs, ':' => [] :: r :: rs
    | r :: rs, c => (c :: r) :: rs
    | [], _ => [[]]

/-- `moment.duration` applied to the `HH:MM:SS` (or `HH:MM`) time texts
carried by stop times: total seconds. -/
def parseDuration (s : String) : Nat :=
  match (splitColons s.toList).map (fun cs => jsParseInt (String.mk cs)) with
  | [some h, some m] => h * 3600 + m * 60
  | [some h, some m, some sec] => h * 3600 + m * 60 + sec
  | _ => 0

structure Association where
  id : Nat
  baseTUID : String
  assocTUID : String
  assocLocation : String
  dateIndicator : DateIndicator
  assocType : AssociationType
  calendar : ScheduleCalendar
  stp : STP
deriving DecidableEq

/-- `Association.tuid`: `{baseTUID}_{assocTUID}_`. -/
def Association.tuid (a : Association) : String :=
  a.baseTUID ++ "_" ++ a.assocTUID ++ "_"

/-- `Association.clone`: clone the association with a different calendar. -/
def Association.clone (a : Association) (calendar : ScheduleCalendar)
    (id : Nat) : Association :=
  ⟨id, a.baseTUID, a.assocTUID, a.assocLocation, a.dateIndicator, a.assocType,
    calendar, a.stp⟩

instance : OverlayRecordC Association where
  rid := Association.id
  tuid := Association.tuid
  stp := Association.stp
  calendar := Association.calendar
  clone := Association.clone
  calendar_clone := fun _ _ _ => rfl
  tuid_clone := fun _ _ _ => rfl

/-- `Association.mergeAssociationStop` (null-safe variant): take the arrival
time of the first stop and the departure time of the second stop and put
them into a new stop; when the association crosses the service-day boundary
(`dateIndicator ≠ Same`) one day is added to the departure, unconditionally;
a missing time is filled from the other one. -/
def Association.mergeAssociationStop (assoc : Association)
    (arrivalStop departureStop : StopTime) : StopTime :=
  let arrivalTime := arrivalStop.arrival_time.map parseDuration
  let departureTime := departureStop.departure_time.map parseDuration
  let departureTime := if assoc.dateIndicator ≠ DateIndicator.Same then
    departureTime.map (fun d => d + 86400) else departureTime
  let arrivalTime := match arrivalTime with
    | none => departureTime
    | some x => some x
  let departureTime := match departureTime with
    | none => arrivalTime
    | some x => some x
  { arrivalStop with
    arrival_time := arrivalTime.map formatDuration
    departure_time := departureTime.map formatDuration
    pickup_type := departureStop.pickup_type
    drop_off_type := arrivalStop.drop_off_type }

/-- A Same-day join association. -/
def c7Assoc : Association :=
  ⟨1, "A", "B", "LOC", DateIndicator.Same, AssociationType.Join,
    ⟨0, 30, ALL_DAYS, ∅⟩, STP.Permanent⟩

/-- Arriving stop: arrives 12:00:00. -/
def c7ArrStop : StopTime :=
  ⟨"t", some "12:00:00", some "12:05:00", "A", "C", "L", 1, none, 0, 0, none, 1⟩

/-- Departing stop: arrives 09:30:00, departs 10:00:00. -/
def c7DepStop : StopTime :=
  ⟨"t", some "09:30:00", some "10:00:00", "A2", "C2", "L2", 2, none, 0, 0, none, 1⟩

/-- Claim C7, counterexample.  In the merge stop, when the arrival (12:00)
occurs later in clock time than the departure (10:00) and the date indicator
is Same, the code keeps the arrival 12:00:00 instead of replacing it with
the departing stop's arrival 09:30:00 as claimed; and when the date
indicator is Next, 24 hours are added to the departure even though the
arrival (10:00) is not later than the departure (12:00). -/
theorem mergeAssociationStop_cex :
    (c7Assoc.mergeAssociationStop c7ArrStop c7DepStop).arrival_time =
      some "12:00:00" ∧
    some "12:00:00" ≠ some "09:30:00" ∧
    (({ c7Assoc with dateIndicator := DateIndicator.Next
        } : Association).mergeAssociationStop
      ⟨"t", some "10:00:00", some "10:05:00", "A", "C", "L", 1, none, 0, 0, none, 1⟩
      ⟨"t", some "11:30:00", some "12:00:00", "A2", "C2", "L2", 2, none, 0, 0, none, 1⟩
      ).departure_time = some "36:00:00" ∧
    some "36:00:00" ≠ some "12:00:00" := by
  refine ⟨by decide, by decide, by decide, by decide⟩

/-- Claim C7, amended.  The merge stop takes its arrival_time from the first
piece's stop and its departure_time from the second piece's stop; its
pickup_type comes from the departing stop and its drop_off_type from the
arriving stop; and 24 hours are added to the departure exactly when the
dateIndicator is not Same, regardless of how arrival and departure compare. -/
theorem mergeAssociationStop_characterization (a : Association)
    (s1 s2 : StopTime) (t1 t2 : String)
    (h1 : s1.arrival_time = some t1) (h2 : s2.departure_time = some t2) :
    (a.mergeAssociationStop s1 s2).arrival_time =
      some (formatDuration (parseDuration t1)) ∧
    (a.mergeAssociationStop s1 s2).departure_time =
      some (formatDuration (parseDuration t2 +
        if a.dateIndicator ≠ DateIndicator.Same then 86400 else 0)) ∧
    (a.mergeAssociationStop s1 s2).pickup_type = s2.pickup_type ∧
    (a.mergeAssociationStop s1 s2).drop_off_type = s1.drop_off_type := by
  unfold Association.mergeAssociationStop
  by_cases hd : a.dateIndicator = DateIndicator.Same <;> simp [h1, h2, hd]

/-- Witness for the amended C7 theorem at the concrete Same-day join. -/
theorem mergeAssociationStop_characterization_witness :
    (c7Assoc.mergeAssociationStop c7ArrStop c7DepStop).arrival_time =
      some (formatDuration (parseDuration "12:00:00")) ∧
    (c7Assoc.mergeAssociationStop c7ArrStop c7DepStop).departure_time =
      some (formatDuration (parseDuration "10:00:00" +
        if c7Assoc.dateIndicator ≠ DateIndicator.Same then 86400 else 0)) ∧
    (c7Assoc.mergeAssociationStop c7ArrStop c7DepStop).pickup_type =
      c7DepStop.pickup_type ∧
    (c7Assoc.mergeAssociationStop c7ArrStop c7DepStop).drop_off_type =
      c7ArrStop.drop_off_type :=
  mergeAssociationStop_characterization c7Assoc c7ArrStop c7DepStop
    "12:00:00" "10:00:00" (by decide) (by decide)

/-! ## Trip ids across the overlay pass -/

/-- The derived trip id of the claim:
`{tuid}_{runsFrom:YYYYMMDD}_{runsTo:YYYYMMDD}` computed from the schedule's
own TUID and the date range of its own calendar. -/
def derivedTripId (s : Schedule) : String :=
  s.tuid ++ "_" ++ fmtYYYYMMDD s.calendar.runsFrom ++ "_" ++
    fmtYYYYMMDD s.calendar.runsTo

/-- A Permanent schedule row for TUID T1, 2017-01-05..2017-01-31. -/
def c8RowP : ScheduleStopTimeRow :=
  { c3RowTF with
    id := 1
    train_uid := "T1"
    runs_from := 4
    runs_to := 30
    stp_indicator := STP.Permanent
    activity := some "T " }

/-- An Overlay row for TUID T1, 2017-01-01..2017-01-07. -/
def c8RowO : ScheduleStopTimeRow :=
  { c3RowTF with
    id := 2
    train_uid := "T1"
    runs_from := 0
    runs_to := 6
    stp_indicator := STP.Overlay
    activity := some "T " }

set_option maxRecDepth 4000 in
/-- Claim C8, counterexample.  `applyOverlay` replaces the base schedule by
`base.clone(newCalendar, base.id)`, and `Schedule.clone` keeps the original
`tripId` while installing the trimmed calendar, so the resolved index (and
the flattener output, which retains every one of these schedules) contains
a schedule whose trip id still names the pre-overlay date range. -/
theorem overlay_clone_stale_trip_id_cex :
    (((applyOverlays [createSchedule [] c8RowP [c6Stop],
        createSchedule [] c8RowO [c6Stop]]) "T1").all
      (fun s => s.tripId == derivedTripId s)) = false ∧
    ((retainedSchedules [("T1", (applyOverlays [createSchedule [] c8RowP [c6Stop],
        createSchedule [] c8RowO [c6Stop]]) "T1")]).any
      (fun s => !(s.tripId == derivedTripId s))) = true ∧
    ((retainedSchedules [("T1", (applyOverlays [createSchedule [] c8RowP [c6Stop],
        createSchedule [] c8RowO [c6Stop]]) "T1")]).map Schedule.tripId).Nodup := by
  refine ⟨by decide, by decide, by decide⟩

/-- Claim C8, amended.  Every schedule as built by the streaming schedule
builder satisfies `tripId = derivedTripId`; `Schedule.clone` — used by the
overlay resolver — preserves the trip id while replacing the calendar, so the
equality holds at build time but not necessarily for overlay clones in the
pipeline output. -/
theorem builder_trip_id_derived (ag : List String) (row : ScheduleStopTimeRow)
    (stops : List StopTime) (cal : ScheduleCalendar) (n : Nat) :
    (createSchedule ag row stops).tripId =
      derivedTripId (createSchedule ag row stops) ∧
    ∀ s : Schedule, (s.clone cal n).tripId = s.tripId ∧ (s.clone cal n).calendar = cal := by
  exact ⟨rfl, fun s => ⟨rfl, rfl⟩⟩

/-! ## Headsign inference (`ScheduleBuilder.fillStopHeadsigns`, part of the
streaming schedule builder).  The source mutates `stops[i].stop_headsign` in
place; each iteration reads only other fields of the stop list, so the pass
is modelled as a function rebuilding the stop list. -/

instance : Inhabited StopTime :=
  ⟨⟨"", none, none, "", "", "", 0, none, 0, 0, none, 0⟩⟩

/-- A via-text table entry (`config/gtfs/vias`, external data). -/
structure ViaTextEntry where
  At : String
  Dest : String
  Loc1 : String
  Loc2 : Option String
  Viatext : String
deriving DecidableEq

/-- `findCallingIndex`: index of the first call with the given CRS code at
position `start` or later, null when absent. -/
def findCallingIndex (stops : List StopTime) (stop_code : String)
    (start : Nat) : Option Nat :=
  ((stops.enum).find? (fun p => decide (start ≤ p.1) && (p.2.stop_code == stop_code))).map
    (fun p => p.1)

/-- The JavaScript pattern `x !== null && y !== null && x < y` on nullable
indices. -/
def optLt (a b : Option Nat) : Bool :=
  match a, b with
  | some x, some y => decide (x < y)
  | _, _ => false

/-- JavaScript truthiness of a nullable index: null and 0 are falsy
(the source tests `if (findCallingIndex('HUD', brighouse))`). -/
def truthyIdx (o : Option Nat) : Bool := o.getD 0 ≠ 0

/-- JavaScript `Array.prototype.slice(start, end)` with a possibly negative
end index. -/
def jsSlice {α : Type} (l : List α) (start : Nat) (stop : Int) : List α :=
  let stopIdx : Nat := if stop < 0 then (max 0 ((l.length : Int) + stop)).toNat
    else min stop.toNat l.length
  (l.take stopIdx).drop start

/-- JavaScript `indexOf`: first index or -1. -/
def jsIndexOf (l : List String) (x : String) : Int :=
  match l.findIdx? (fun a => a == x) with
  | some n => (n : Int)
  | none => -1

/-- The South Western Railway false-destination rules. -/
def swFalseDestination (stops : List StopTime) (i : Nat) (stop_code : String) :
    Option Nat :=
  let strawberry_hill := findCallingIndex stops "STW" (i + 1)
  let twickenham := findCallingIndex stops "TWI" (i + 1)
  let richmond := findCallingIndex stops "RMD" (i + 1)
  let hounslow := findCallingIndex stops "HOU" (i + 1)
  let chiswick := findCallingIndex stops "CHK" (i + 1)
  let kingston := findCallingIndex stops "KNG" (i + 1)
  let teddington := findCallingIndex stops "TED" (i + 1)
  let staines := findCallingIndex stops "SNS" (i + 1)
  let wimbledon := findCallingIndex stops "WIM" (i + 1)
  let barnes_bridge := findCallingIndex stops "BNI" (i + 1)
  let brentford := findCallingIndex stops "BFD" (i + 1)
  let mortlake := findCallingIndex stops "MTL" (i + 1)
  let barnes := findCallingIndex stops "BNS" (i + 1)
  let addlestone := findCallingIndex stops "ASN" (i + 1)
  -- Kingston loop clockwise
  if (["WAT", "VXH", "CLJ"] : List String).contains stop_code
      && optLt wimbledon strawberry_hill && staines.isNone then strawberry_hill
  else if optLt kingston richmond then richmond
  else if optLt kingston chiswick then chiswick
  -- Kingston loop anti-clockwise
  else if (["WAT", "VXH", "QRB", "CLJ"] : List String).contains stop_code
      && teddington.isSome && optLt twickenham strawberry_hill then teddington
  else if wimbledon.isSome && (optLt twickenham wimbledon || stop_code == "TWI")
    then wimbledon
  -- Hounslow loop clockwise
  else if optLt richmond hounslow
      && (["WAT", "VXH", "QRB", "CLJ", "WNT", "PUT", "BNS"] : List String).contains stop_code
    then hounslow
  else if chiswick.isSome && (stop_code == "TWI" || optLt twickenham chiswick)
    then chiswick
  else if stop_code == "WTN" && barnes_bridge.isSome then barnes_bridge
  -- Hounslow loop anti-clockwise
  else if optLt brentford hounslow && staines.isNone then hounslow
  else if optLt hounslow mortlake then mortlake
  -- Weybridge (via Hounslow) service
  else if stop_code == "WAT" && addlestone.isSome then addlestone
  else if optLt addlestone barnes then barnes
  else none

/-- The Southeastern false-destination rules. -/
def seFalseDestination (stops : List StopTime) (i : Nat) (stop_code : String) :
    Option Nat :=
  let dartford := findCallingIndex stops "DFD" (i + 1)
  let woolwich := findCallingIndex stops "WWA" (i + 1)
  let bexleyheath := findCallingIndex stops "BXH" (i + 1)
  let sidcup := findCallingIndex stops "SID" (i + 1)
  let slade_green := findCallingIndex stops "SGR" (i + 1)
  let eltham := findCallingIndex stops "ELW" (i + 1)
  let crayford := findCallingIndex stops "CRY" (i + 1)
  let barnehurst := findCallingIndex stops "BNH" (i + 1)
  let ashford := findCallingIndex stops "AFK" (i + 1)
  let sandwich := findCallingIndex stops "SDW" (i + 1)
  let gravesend := findCallingIndex stops "GRV" (i + 1)
  let ramsgate := findCallingIndex stops "RAM" (i + 1)
  let folkestone_west := findCallingIndex stops "FKW" (i + 1)
  let margate := findCallingIndex stops "MAR" (i + 1)
  let canterbury_west := findCallingIndex stops "CBW" (i + 1)
  -- rounder via Woolwich first
  if optLt woolwich slade_green && dartford.isNone then slade_green
  else if optLt slade_green eltham then eltham
  else if optLt slade_green sidcup then sidcup
  -- rounder via Bexleyheath first
  else if optLt eltham bexleyheath && dartford.isNone && optLt bexleyheath slade_green
    then slade_green
  else if optLt eltham bexleyheath && dartford.isNone && optLt bexleyheath barnehurst
    then barnehurst
  else if (barnehurst.isSome || stop_code == "BNH")
      && optLt (some (barnehurst.getD i)) woolwich then woolwich
  else if (barnehurst.isSome || stop_code == "BNH")
      && optLt (some (barnehurst.getD i)) sidcup then sidcup
  -- rounder via Sidcup first
  else if sidcup.isSome && dartford.isNone && optLt sidcup slade_green then slade_green
  else if sidcup.isSome && dartford.isNone && optLt sidcup crayford then crayford
  else if (crayford.isSome || stop_code == "CRY")
      && optLt (some (crayford.getD i)) woolwich then woolwich
  else if (crayford.isSome || stop_code == "CRY")
      && optLt (some (crayford.getD i)) eltham then eltham
  -- Kent coast rounder anti clockwise
  else if sandwich.isSome && (optLt ashford sandwich || stop_code == "AFK")
      && canterbury_west.isNone then sandwich
  else if gravesend.isSome && (stop_code == "SDW" || optLt sandwich gravesend)
    then gravesend
  -- Kent coast rounder clockwise
  else if optLt gravesend ramsgate then ramsgate
  else if optLt margate folkestone_west then folkestone_west
  else none

/-- The Merseyrail (Wirral line) false-destination rule. -/
def meFalseDestination (stops : List StopTime) (i : Nat) : Option Nat :=
  match findCallingIndex stops "MRF" (i + 1) with
  | none => none
  | some moorfields =>
    match findCallingIndex stops "LVC" moorfields with
    | none => none
    | some liverpool_central =>
      if (findCallingIndex stops "LVJ" liverpool_central).isSome then
        some liverpool_central
      else none

/-- The Transport for Wales (Merthyr line) false-destination rule. -/
def awFalseDestination (stops : List StopTime) (i : Nat) : Option Nat :=
  match findCallingIndex stops "NNP" i with
  | none => none
  | some ninian_park =>
    match findCallingIndex stops "CDF" ninian_park with
    | none => none
    | some cardiff_central =>
      if (findCallingIndex stops "RDR" cardiff_central).isSome then
        some cardiff_central
      else none

/-- The catch-all Huddersfield/Brighouse rule (note the truthiness test on
the second Huddersfield call: a call at index 0 does not count). -/
def hudFalseDestination (stops : List StopTime) (i : Nat) : Option Nat :=
  match findCallingIndex stops "HUD" i with
  | none => none
  | some huddersfield =>
    match findCallingIndex stops "BGH" huddersfield with
    | none => none
    | some brighouse =>
      if truthyIdx (findCallingIndex stops "HUD" brighouse) then some brighouse
      else none

/-- `getFalseDestinationIndex`: the operator blocks in source order, each
falling through to the next when no rule fires. -/
def getFalseDestinationIndex (atoc_code : Option String)
    (stops : List StopTime) (i : Nat) (stop_code : String) : Option Nat :=
  (((if atoc_code = some "SW" then swFalseDestination stops i stop_code else none).or
    (if atoc_code = some "SE" then seFalseDestination stops i stop_code else none)).or
    ((if atoc_code = some "ME" then meFalseDestination stops i else none).or
      (if atoc_code = some "AW" then awFalseDestination stops i else none))).or
    (hudFalseDestination stops i)

/-- The `viaText[stop_code]?.reduce(...)` accumulator: the best matching
via-text entry, preferring the one whose `Loc1` appears earliest. -/
def viaReduce (stop_code dest : String) (via_tiplocs : List String)
    (items : List ViaTextEntry) : Option ViaTextEntry :=
  items.foldl (fun carry item =>
    let loc1index := jsIndexOf via_tiplocs item.Loc1
    let loc2index := item.Loc2.map (jsIndexOf via_tiplocs)
    if item.At == stop_code && item.Dest == dest
        && decide (0 ≤ loc1index)
        && (item.Loc2.isNone || decide (0 ≤ loc2index.getD (-1)))
        && (item.Loc2.isNone || decide (loc1index < loc2index.getD (-1))) then
      match carry with
      | none => some item
      | some c =>
        if loc1index < jsIndexOf via_tiplocs c.Loc1 then some item else some c
    else carry) none

/-- The headsign computed for the stop at index `i`. -/
def stopHeadsign (getStopName : String → Option String)
    (viaText : String → Option (List ViaTextEntry))
    (atoc_code : Option String) (stops : List StopTime) (i : Nat) :
    Option String :=
  let destination_tiploc := (stops.getD (stops.length - 1) default).tiploc_code
  let destination_name := getStopName (stops.getD (stops.length - 1) default).stop_id
  let stop := stops.getD i default
  let stop_code := stop.stop_code
  let false_destination_index := getFalseDestinationIndex atoc_code stops i stop_code
  let false_destination := match false_destination_index with
    | none => none
    | some j => getStopName (stops.getD j default).stop_id
  let via_tiplocs := ((jsSlice stops (i + 1)
      (match false_destination_index with | some j => (j : Int) | none => -1)).filter
    (fun s => s.arrival_time ≠ none)).map (fun s => s.tiploc_code)
  let dest := match false_destination_index with
    | none => destination_tiploc
    | some j => (stops.getD j default).tiploc_code
  let via := match viaText stop_code with
    | none => none
    | some items => (viaReduce stop_code dest via_tiplocs items).map (fun it => it.Viatext)
  match via with
  | some v => some (jsStr (false_destination.or destination_name) ++ " (" ++ v ++ ")")
  | none => false_destination

/-- `ScheduleBuilder.fillStopHeadsigns`: assign `stop_headsign` for every
stop of the schedule.  The repository lookup `getStopName` and the
`viaText` config table are external collaborators passed as functions. -/
def fillStopHeadsigns (getStopName : String → Option String)
    (viaText : String → Option (List ViaTextEntry)) (schedule : Schedule) :
    Schedule :=
  let stops := schedule.stopTimes
  if stops.length = 0 then schedule
  else
    { schedule with stopTimes := (List.range stops.length).map (fun i =>
        { stops.getD i default with
          stop_headsign := stopHeadsign getStopName viaText schedule.operator stops i }) }

theorem getD_map_range {α : Type} (n i : Nat) (f : Nat → α) (d : α) (h : i < n) :
    ((List.range n).map f).getD i d = f i := by
  have h1 : ((List.range n).map f)[i]? = some (f i) := by
    rw [List.getElem?_map, List.getElem?_range h]
    rfl
  rw [List.getD_eq_getElem?_getD, h1]
  rfl

/-- A stop with the given CRS code and stop id. -/
def c9Stop (code atco : String) : StopTime :=
  ⟨"t", some "10:00:00", some "10:00:00", atco, code, "TIP" ++ code, 1, none,
    0, 0, none, 1⟩

/-- A schedule calling Huddersfield, Brighouse, Huddersfield — the pattern of
the catch-all headsign rule. -/
def c9Sched : Schedule :=
  ⟨1, "t", [c9Stop "AAA" "A0", c9Stop "HUD" "A1", c9Stop "BGH" "A2",
    c9Stop "HUD" "A3"], "T1", none, ⟨0, 30, ALL_DAYS, ∅⟩, RouteType.Rail,
    some "XX", STP.Permanent, true, false⟩

/-- The stop-name lookup used by the C9 counterexample. -/
def c9Names (a : String) : Option String :=
  if a == "A2" then some "Brighouse" else none

/-- Claim C9, counterexample.  Headsign inference does not leave every field
of every already-created record unchanged: on a schedule matching the
Huddersfield/Brighouse rule it rewrites the first stop's `stop_headsign`
from null to the false-destination name, mutating the stop-time record (the
source assigns `stop.stop_headsign = ...` in place on the flattener's
output). -/
theorem fillStopHeadsigns_mutates_cex :
    ((fillStopHeadsigns c9Names (fun _ => none) c9Sched).stopTimes.getD 0
      default).stop_headsign = some "Brighouse" ∧
    (c9Sched.stopTimes.getD 0 default).stop_headsign = none := by
  refine ⟨by decide, by decide⟩

/-- Claim C9, amended.  Headsign inference mutates stop-time records in
place, but only their `stop_headsign` field: the stop list keeps its length,
every other stop field is unchanged, and every schedule-level field is
unchanged. -/
theorem fillStopHeadsigns_frame (getStopName : String → Option String)
    (viaText : String → Option (List ViaTextEntry)) (s : Schedule) :
    (fillStopHeadsigns getStopName viaText s).stopTimes.length =
      s.stopTimes.length ∧
    (∀ i, i < s.stopTimes.length →
      let s' := (fillStopHeadsigns getStopName viaText s).stopTimes.getD i default
      let s0 := s.stopTimes.getD i default
      s'.trip_id = s0.trip_id ∧ s'.arrival_time = s0.arrival_time ∧
      s'.departure_time = s0.departure_time ∧ s'.stop_id = s0.stop_id ∧
      s'.stop_code = s0.stop_code ∧ s'.tiploc_code = s0.tiploc_code ∧
      s'.stop_sequence = s0.stop_sequence ∧ s'.pickup_type = s0.pickup_type ∧
      s'.drop_off_type = s0.drop_off_type ∧
      s'.shape_dist_traveled = s0.shape_dist_traveled ∧
      s'.timepoint = s0.timepoint) ∧
    (fillStopHeadsigns getStopName viaText s).id = s.id ∧
    (fillStopHeadsigns getStopName viaText s).tripId = s.tripId ∧
    (fillStopHeadsigns getStopName viaText s).tuid = s.tuid ∧
    (fillStopHeadsigns getStopName viaText s).rsid = s.rsid ∧
    (fillStopHeadsigns getStopName viaText s).calendar = s.calendar ∧
    (fillStopHeadsigns getStopName viaText s).mode = s.mode ∧
    (fillStopHeadsigns getStopName viaText s).operator = s.operator ∧
    (fillStopHeadsigns getStopName viaText s).stp = s.stp ∧
    (fillStopHeadsigns getStopName viaText s).firstClassAvailable =
      s.firstClassAvailable ∧
    (fillStopHeadsigns getStopName viaText s).reservationPossible =
      s.reservationPossible := by
  by_cases h0 : s.stopTimes.length = 0
  · have heq : fillStopHeadsigns getStopName viaText s = s := by
      unfold fillStopHeadsigns
      rw [if_pos h0]
    rw [heq]
    exact ⟨rfl, fun i hi => absurd hi (by omega), rfl, rfl, rfl, rfl, rfl,
      rfl, rfl, rfl, rfl, rfl⟩
  · have heq : fillStopHeadsigns getStopName viaText s =
        { s with stopTimes := (List.range s.stopTimes.length).map (fun i =>
            { s.stopTimes.getD i default with
              stop_headsign :=
                stopHeadsign getStopName viaText s.operator s.stopTimes i }) } := by
      unfold fillStopHeadsigns
      rw [if_neg h0]
    rw [heq]
    refine ⟨by simp, ?_, rfl, rfl, rfl, rfl, rfl, rfl, rfl, rfl, rfl, rfl⟩
    intro i hi
    simp only
    rw [getD_map_range s.stopTimes.length i _ default hi]
    exact ⟨rfl, rfl, rfl, rfl, rfl, rfl, rfl, rfl, rfl, rfl, rfl⟩

/-- Witness for the amended C9 frame theorem at the concrete schedule of the
counterexample, instantiated at stop 0. -/
theorem fillStopHeadsigns_frame_witness :
    ((fillStopHeadsigns c9Names (fun _ => none) c9Sched).stopTimes.getD 0
      default).trip_id = (c9Sched.stopTimes.getD 0 default).trip_id ∧
    (fillStopHeadsigns c9Names (fun _ => none) c9Sched).tripId =
      c9Sched.tripId :=
  ⟨((fillStopHeadsigns_frame c9Names (fun _ => none) c9Sched).2.1 0
      (by decide)).1,
    (fillStopHeadsigns_frame c9Names (fun _ => none) c9Sched).2.2.2.1⟩

/-! ## GTFS writer loop (`OutputGTFSCommand.copyTrips`).

The repository-dependent record constructors (`schedule.toRoute`,
`schedule.toTrip`, `schedule.toShape`, the `objectHash` route hash and the
`serviceIds` index) are external collaborators abstracted as function
parameters; the loop structure — the `stopTimes.length <= 1` skip, route
grouping by hash, stop-time filtering and renumbering, and shape
deduplication — is embedded from the source. -/

/-- A row written to `stop_times.txt`: the stop-time with `stop_sequence`
renumbered and the non-standard `stop_code`/`tiploc_code` columns dropped. -/
structure WrittenStopTime where
  trip_id : String
  arrival_time : Option String
  departure_time : Option String
  stop_id : String
  stop_sequence : Nat
  stop_headsign : Option String
  pickup_type : Nat
  drop_off_type : Nat
  shape_dist_traveled : Option Nat
  timepoint : Nat
deriving DecidableEq

/-- The stop-time rows written for one schedule: public stops only
(`departure_time != null || arrival_time != null`; the `stop_code !== null`
guard is vacuous here since `stop_code` is a string), renumbered from 0. -/
def writtenStopTimes (s : Schedule) : List WrittenStopTime :=
  ((s.stopTimes.filter (fun r =>
      r.departure_time != none || r.arrival_time != none)).enum).map
    (fun p => ⟨p.2.trip_id, p.2.arrival_time, p.2.departure_time, p.2.stop_id,
      p.1, p.2.stop_headsign, p.2.pickup_type, p.2.drop_off_type,
      p.2.shape_dist_traveled, p.2.timepoint⟩)

/-- The writer state: the four output files plus the route-grouping object
and the written-shape set. -/
structure CopyTripsState (τ ρ σ : Type) where
  trips : List τ
  stopTimes : List WrittenStopTime
  routes : List (String × ρ)
  writtenShapes : List String
  shapes : List σ
deriving DecidableEq

/-- `routes[routeHash]` lookup. -/
def lookupRoute {ρ : Type} (routes : List (String × ρ)) (h : String) :
    Option ρ :=
  (routes.find? (fun p => p.1 == h)).map (fun p => p.2)

/-- One iteration of the `for (const schedule of schedules)` loop of
`copyTrips`. -/
def copyTripsStep {τ ρ σ : Type} (toRoute : Schedule → ρ)
    (routeHash : ρ → String) (routeIdOf : ρ → String)
    (toTrip : Schedule → String → String → τ)
    (serviceIdOf : Schedule → String) (toShape : Schedule → List σ)
    (shapeIdOf : Schedule → String)
    (st : CopyTripsState τ ρ σ) (schedule : Schedule) : CopyTripsState τ ρ σ :=
  if schedule.stopTimes.length ≤ 1 then st
  else
    let route := toRoute schedule
    let h := routeHash route
    let routes := if st.routes.any (fun p => p.1 == h) then st.routes
      else st.routes ++ [(h, route)]
    let routeId := routeIdOf ((lookupRoute routes h).getD route)
    let serviceId := serviceIdOf schedule
    let trips := st.trips ++ [toTrip schedule serviceId routeId]
    let stopTimes := st.stopTimes ++ writtenStopTimes schedule
    let shapeId := shapeIdOf schedule
    if st.writtenShapes.contains shapeId then
      ⟨trips, stopTimes, routes, st.writtenShapes, st.shapes⟩
    else
      ⟨trips, stopTimes, routes, st.writtenShapes ++ [shapeId],
        st.shapes ++ toShape schedule⟩

/-- `OutputGTFSCommand.copyTrips`: fold the schedules and then write
`routes.txt` from the grouping object in insertion order. -/
def copyTrips {τ ρ σ : Type} (toRoute : Schedule → ρ)
    (routeHash : ρ → String) (routeIdOf : ρ → String)
    (toTrip : Schedule → String → String → τ)
    (serviceIdOf : Schedule → String) (toShape : Schedule → List σ)
    (shapeIdOf : Schedule → String)
    (schedules : List Schedule) : CopyTripsState τ ρ σ × List ρ :=
  let st := schedules.foldl
    (copyTripsStep toRoute routeHash routeIdOf toTrip serviceIdOf toShape shapeIdOf)
    ⟨[], [], [], [], []⟩
  (st, st.routes.map (fun p => p.2))

/-- Claim C10.  For every schedule whose stop-time list has length 0 or 1,
the GTFS writer emits no trip, no stop_times, no route and no shape for it:
the whole output — all four files and the route grouping state — is the same
as if those schedules were not in the input at all. -/
theorem copyTrips_skips_short_schedules {τ ρ σ : Type} (toRoute : Schedule → ρ)
    (routeHash : ρ → String) (routeIdOf : ρ → String)
    (toTrip : Schedule → String → String → τ)
    (serviceIdOf : Schedule → String) (toShape : Schedule → List σ)
    (shapeIdOf : Schedule → String) (schedules : List Schedule) :
    copyTrips toRoute routeHash routeIdOf toTrip serviceIdOf toShape shapeIdOf
        schedules =
      copyTrips toRoute routeHash routeIdOf toTrip serviceIdOf toShape shapeIdOf
        (schedules.filter (fun s => 1 < s.stopTimes.length)) := by
  unfold copyTrips
  have key : ∀ (l : List Schedule) (st : CopyTripsState τ ρ σ),
      l.foldl (copyTripsStep toRoute routeHash routeIdOf toTrip serviceIdOf
        toShape shapeIdOf) st =
      (l.filter (fun s => 1 < s.stopTimes.length)).foldl
        (copyTripsStep toRoute routeHash routeIdOf toTrip serviceIdOf
          toShape shapeIdOf) st := by
    intro l
    induction l with
    | nil => intro st; rfl
    | cons s rest ih =>
      intro st
      by_cases hs : 1 < s.stopTimes.length
      · rw [List.filter_cons_of_pos (by simpa using hs)]
        rw [List.foldl_cons, List.foldl_cons]
        exact ih _
      · rw [List.filter_cons_of_neg (by simpa using hs)]
        rw [List.foldl_cons]
        have hskip : copyTripsStep toRoute routeHash routeIdOf toTrip
            serviceIdOf toShape shapeIdOf st s = st := by
          unfold copyTripsStep
          rw [if_pos (by omega)]
        rw [hskip]
        exact ih st
  rw [key]

end Dtd2Mysql
